import Mathlib

/-!
Shallow embedding of the decision engine (src/decisionengine/algorithms.py).

Modelling conventions:
* Python floats are modelled as `ℚ` (all arithmetic in the source is exact on
  the inputs the claims use); Python ints as `ℕ`.
* Python dicts (which preserve insertion order, and in which `max(d.items(),
  key=itemgetter(1))` keeps the first maximal item) are modelled as ordered
  association lists `List (String × _)`; value assignment to an existing key
  keeps its position.
* Every stochastic primitive (`random.random`, `random.choice`,
  `np.random.rand`, `np.random.choice`, `random.choices`) is given its drawn
  value as an explicit argument: a rational draw in `[0,1)` for the uniform
  draws, and an index (taken modulo the list length) for the choices, so that
  every element a choice could return is reachable by some index.
* A Python call that raises (`IndexError`/`KeyError`/`AttributeError`/
  `ValueError`) is modelled as `none`; attributes that do not exist until
  first assignment (`last_action`, `last_state`, `next_state`) are `Option`
  fields that start as `none`.
-/

namespace DecisionEngine

/-- An operation of the architecture model, with the fields the engine reads:
unique name, optional circuit-breaker marker, dependency list and the owning
service's instance count. -/
structure Operation where
  name : String
  circuitbreaker : Option Unit
  dependencies : List String
  instances : ℕ
deriving DecidableEq

/-- The architecture collaborator: its operation list and, for each operation
(identified by its unique name), the incoming-dependency operations. -/
structure Arch where
  operations : List Operation
  incoming : String → List Operation

/-- The two fault types (`fault_types` in `BaseAlgorithm.__init__`). -/
def fault_types : List String := ["abort", "delay"]

/-- The two operation names excluded from the action universe. -/
def excludedNames : List String := ["a1", "a2"]

/-- The flat action universe built by `BaseAlgorithm.__init__`:
`<operation-name>-<fault>` for every non-excluded operation and both fault
types, in operation order with faults inner. -/
def fault_injections (arch : Arch) : List String :=
  (arch.operations.filter (fun op => !(excludedNames.contains op.name))).flatMap
    (fun op => fault_types.map (fun f => op.name ++ "-" ++ f))

/-- `random.choice(l)` with its random draw given as an index: any element is
reachable; the empty list raises (`none`). -/
def choiceIdx {β : Type} (l : List β) (i : ℕ) : Option β :=
  l.get? (i % l.length)

/-- Assignment `d[k] = v` on a Python dict whose key `k` is already present:
the value is replaced in place, the key order is unchanged. -/
def setVal {β : Type} (l : List (String × β)) (k : String) (v : β) :
    List (String × β) :=
  l.map (fun p => if p.1 = k then (k, v) else p)

/-- `max(d.items(), key=operator.itemgetter(1))`: the first item with maximal
value (Python's `max` keeps the incumbent on ties); raises on an empty dict. -/
def maxItem (l : List (String × ℚ)) : Option (String × ℚ) :=
  match l with
  | [] => none
  | x :: xs => some (xs.foldl (fun b a => if b.2 < a.2 then a else b) x)

/-! ## ExperienceReplay -/

/-- The bounded replay buffer (`ExperienceReplay`).  It stores whatever the
caller passes to `remember`; the type of entries is a parameter. -/
structure ExperienceReplay (α : Type) where
  memory : List α
  max_memory : ℕ
  discount : ℚ

/-- `ExperienceReplay.remember`: unconditionally append. -/
def ExperienceReplay.remember {α : Type} (er : ExperienceReplay α) (e : α) :
    ExperienceReplay α :=
  { er with memory := er.memory ++ [e] }

/-- The eviction performed at the start of `ExperienceReplay.get_batch`:
`del self.memory[:len-max_memory]` when over capacity, keeping the newest
`max_memory` entries. -/
def ExperienceReplay.trim {α : Type} (er : ExperienceReplay α) :
    ExperienceReplay α :=
  if er.max_memory < er.memory.length then
    { er with memory := er.memory.drop (er.memory.length - er.max_memory) }
  else er

/-- The sum of `timerank = range(1, n+1)` in `get_batch`. -/
def timerankSum (n : ℕ) : ℚ :=
  (((List.range n).map (fun (i : ℕ) => ((i : ℚ) + 1))).sum)

/-- The normalized selection weights `p = timerank / np.sum(timerank)` of
`get_batch`: the entry at position `i` (the `i+1`-st oldest) has weight
`(i+1)/timerankSum`. -/
def timerankWeights (n : ℕ) : List ℚ :=
  (List.range n).map (fun (i : ℕ) => ((i : ℚ) + 1) / timerankSum n)

/-- `ExperienceReplay.get_batch`.  `sampler n w k` stands for
`np.random.choice(range(n), replace=False, size=k, p=w)`: the index list the
sampler draws.  Returns the batch and the buffer left behind (the eviction at
the top of `get_batch` mutates the buffer). -/
def ExperienceReplay.get_batch {α : Type} (er : ExperienceReplay α)
    (batch_size : ℕ) (sampler : ℕ → List ℚ → ℕ → List ℕ) :
    List α × ExperienceReplay α :=
  let er2 := er.trim
  let n := er2.memory.length
  if batch_size < n then
    (((sampler n (timerankWeights n) batch_size).filterMap
        (fun i => er2.memory.get? i)), er2)
  else
    (er2.memory, er2)

/-! ## BanditEpsilonAlgorithm -/

/-- State of `BanditEpsilonAlgorithm`.  `params` is the 3-vector
`[epsilon, gamma, min_epsilon]` the constructor consumes. -/
structure BanditEpsilonAlgorithm where
  arch : Arch
  params : ℚ × ℚ × ℚ
  epsilon : ℚ
  gamma : ℚ
  min_epsilon : ℚ
  original_epsilon : ℚ
  fault_injections : List String
  Q : List (String × ℚ)
  N : List (String × ℕ)
  last_action : Option String

/-- `BanditEpsilonAlgorithm.__init__`: Q initialized to 0 and N to 1 for every
action of the universe. -/
def BanditEpsilonAlgorithm.init (arch : Arch) (params : ℚ × ℚ × ℚ) :
    BanditEpsilonAlgorithm :=
  let fi := DecisionEngine.fault_injections arch
  { arch := arch
    params := params
    epsilon := params.1
    gamma := params.2.1
    min_epsilon := params.2.2
    original_epsilon := params.1
    fault_injections := fi
    Q := fi.map (fun a => (a, 0))
    N := fi.map (fun a => (a, 1))
    last_action := none }

/-- `BanditEpsilonAlgorithm.get_action`: with probability ε (draw `r`) a
uniformly random action, otherwise the first maximal-Q action. -/
def BanditEpsilonAlgorithm.get_action (s : BanditEpsilonAlgorithm) (r : ℚ)
    (i : ℕ) : Option (String × BanditEpsilonAlgorithm) :=
  if r < s.epsilon then
    match choiceIdx (s.Q.map Prod.fst) i with
    | none => none
    | some a => some (a, { s with last_action := some a })
  else
    match maxItem s.Q with
    | none => none
    | some p => some (p.1, { s with last_action := some p.1 })

/-- `BanditEpsilonAlgorithm.result`: incremental running mean on the last
proposed action, then ε decay. -/
def BanditEpsilonAlgorithm.result (s : BanditEpsilonAlgorithm) (res : ℚ) :
    Option BanditEpsilonAlgorithm := do
  let action ← s.last_action
  let n ← s.N.lookup action
  let prev_q ← s.Q.lookup action
  let n2 := n + 1
  some { s with
    N := setVal s.N action n2
    Q := setVal s.Q action (prev_q + (1 / (n2 : ℚ)) * (res - prev_q))
    epsilon := (s.epsilon - s.min_epsilon) * s.gamma + s.min_epsilon }

/-- `BanditEpsilonAlgorithm.reset`: re-construct from the architecture and the
original ε (not the decayed one), γ and ε_min. -/
def BanditEpsilonAlgorithm.reset (s : BanditEpsilonAlgorithm) :
    BanditEpsilonAlgorithm :=
  BanditEpsilonAlgorithm.init s.arch (s.original_epsilon, s.gamma, s.min_epsilon)

/-! ## BanditOptimisticAlgorithm -/

/-- State of `BanditOptimisticAlgorithm`.  `params` is the 1-vector
`[optimistic]`. -/
structure BanditOptimisticAlgorithm where
  arch : Arch
  params : ℚ
  optimistic : ℚ
  fault_injections : List String
  Q : List (String × ℚ)
  N : List (String × ℕ)
  last_action : Option String

/-- `BanditOptimisticAlgorithm.__init__`: all Q initialized to the optimistic
value, N to 1. -/
def BanditOptimisticAlgorithm.init (arch : Arch) (params : ℚ) :
    BanditOptimisticAlgorithm :=
  let fi := DecisionEngine.fault_injections arch
  { arch := arch
    params := params
    optimistic := params
    fault_injections := fi
    Q := fi.map (fun a => (a, params))
    N := fi.map (fun a => (a, 1))
    last_action := none }

/-- `BanditOptimisticAlgorithm.get_action`: always greedy, first maximal-Q
action. -/
def BanditOptimisticAlgorithm.get_action (s : BanditOptimisticAlgorithm) :
    Option (String × BanditOptimisticAlgorithm) :=
  match maxItem s.Q with
  | none => none
  | some p => some (p.1, { s with last_action := some p.1 })

/-- `BanditOptimisticAlgorithm.result`: incremental running mean, no decay. -/
def BanditOptimisticAlgorithm.result (s : BanditOptimisticAlgorithm) (res : ℚ) :
    Option BanditOptimisticAlgorithm := do
  let action ← s.last_action
  let prev_q ← s.Q.lookup action
  let n ← s.N.lookup action
  let n2 := n + 1
  some { s with
    N := setVal s.N action n2
    Q := setVal s.Q action (prev_q + (1 / (n2 : ℚ)) * (res - prev_q)) }

/-- `BanditOptimisticAlgorithm.reset`: re-construct from the stored optimistic
value. -/
def BanditOptimisticAlgorithm.reset (s : BanditOptimisticAlgorithm) :
    BanditOptimisticAlgorithm :=
  BanditOptimisticAlgorithm.init s.arch s.optimistic

/-! ## RandomAlgorithm -/

/-- State of `RandomAlgorithm` (no mutable learning state at all). -/
structure RandomAlgorithm where
  arch : Arch
  fault_injections : List String

/-- `RandomAlgorithm.__init__`. -/
def RandomAlgorithm.init (arch : Arch) : RandomAlgorithm :=
  { arch := arch, fault_injections := DecisionEngine.fault_injections arch }

/-- `RandomAlgorithm.get_action`: a uniformly random action from the flat
universe; records nothing. -/
def RandomAlgorithm.get_action (s : RandomAlgorithm) (i : ℕ) : Option String :=
  choiceIdx s.fault_injections i

/-- `RandomAlgorithm` does not override `result`: it inherits
`BaseAlgorithm.result`, whose body is `pass` — a silent no-op. -/
def RandomAlgorithm.result (s : RandomAlgorithm) (_res : ℚ) :
    Option RandomAlgorithm :=
  some s

/-- `RandomAlgorithm` inherits `BaseAlgorithm.reset`, which re-runs the
constructor on the stored architecture. -/
def RandomAlgorithm.reset (s : RandomAlgorithm) : RandomAlgorithm :=
  RandomAlgorithm.init s.arch

/-! ## QLearningAlgorithm -/

/-- The Q/N tables of one QLearning state (`self.states[name]`). -/
structure QLState where
  Q : List (String × ℚ)
  N : List (String × ℕ)

/-- `QLearningAlgorithm.random_argmax` (the dict version): the first maximal
item gives the maximum; `np.random.choice` over all keys achieving it is
modelled by the tie index `t`. -/
def random_argmax (l : List (String × ℚ)) (t : ℕ) : Option String :=
  match maxItem l with
  | none => none
  | some mx =>
    choiceIdx ((l.filter (fun p => decide (p.2 = mx.2))).map Prod.fst) t

/-- State of `QLearningAlgorithm`.  `params` is the 4-vector
`[epsilon, gamma, learning_rate, initial_q]`. -/
structure QLearningAlgorithm where
  arch : Arch
  params : ℚ × ℚ × ℚ × ℚ
  epsilon : ℚ
  gamma : ℚ
  learning_rate : ℚ
  initial_q : ℚ
  fault_injections : List String
  states : List (String × QLState)
  state : String
  next_state : Option String

/-- `QLearningAlgorithm.__init__`: a state per operation with at least one
incoming dependency (no exclusion filter here), its action set the incoming
dependency names; the initial position is a uniformly random state key
(`random.choice`, drawn index `i`) — an architecture with no such operation
raises at construction. -/
def QLearningAlgorithm.states_init (arch : Arch) (q0 : ℚ) :
    List (String × QLState) :=
  (arch.operations.filter
      (fun op => !(arch.incoming op.name).isEmpty)).map
    (fun op =>
      (op.name,
        { Q := (arch.incoming op.name).map (fun dep => (dep.name, q0))
          N := (arch.incoming op.name).map (fun dep => (dep.name, 0)) : QLState }))

/-- Continuation of `QLearningAlgorithm.__init__`: build the state table and
draw the initial position. -/
def QLearningAlgorithm.init (arch : Arch) (params : ℚ × ℚ × ℚ × ℚ) (i : ℕ) :
    Option QLearningAlgorithm :=
  let sts := QLearningAlgorithm.states_init arch params.2.2.2
  match choiceIdx (sts.map Prod.fst) i with
  | none => none
  | some st0 =>
    some { arch := arch
           params := params
           epsilon := params.1
           gamma := params.2.1
           learning_rate := params.2.2.1
           initial_q := params.2.2.2
           fault_injections := DecisionEngine.fault_injections arch
           states := sts
           state := st0
           next_state := none }

/-- `QLearningAlgorithm.get_action`: greedy (randomized argmax, tie index `t`)
when the draw `r` satisfies `r ≥ ε`, otherwise a uniformly random action
(index `c`); remember the chosen dependency name as the next state and append
a uniformly random fault suffix (index `f`). -/
def QLearningAlgorithm.get_action (s : QLearningAlgorithm) (r : ℚ)
    (t c f : ℕ) : Option (String × QLearningAlgorithm) :=
  if s.epsilon ≤ r then
    (s.states.lookup s.state).bind (fun st =>
      (random_argmax st.Q t).bind (fun a =>
        (choiceIdx fault_types f).bind (fun fault =>
          some (a ++ "-" ++ fault, { s with next_state := some a }))))
  else
    (s.states.lookup s.state).bind (fun st =>
      (choiceIdx (st.Q.map Prod.fst) c).bind (fun a =>
        (choiceIdx fault_types f).bind (fun fault =>
          some (a ++ "-" ++ fault, { s with next_state := some a }))))

/-- The update body of `QLearningAlgorithm.result` for proposed next state
`ns` and actual next state `nsa`: TD(0) update of `Q[state][ns]` with the
bootstrap read at a randomized argmax key of `Q[nsa]` (tie index `t`), then
advance the position to `nsa`. -/
def QLearningAlgorithm.result_update (s : QLearningAlgorithm) (res : ℚ)
    (ns nsa : String) (t : ℕ) : Option QLearningAlgorithm :=
  (s.states.lookup s.state).bind (fun st =>
    (st.Q.lookup ns).bind (fun prev_q =>
      (st.N.lookup ns).bind (fun n =>
        (s.states.lookup nsa).bind (fun nast =>
          (random_argmax nast.Q t).bind (fun ak =>
            (nast.Q.lookup ak).bind (fun bootstrap =>
              some { s with
                states := setVal s.states s.state
                  { Q := setVal st.Q ns ((1 - s.learning_rate) * prev_q
                      + s.learning_rate * (res + s.gamma * bootstrap))
                    N := setVal st.N ns (n + 1) }
                state := nsa }))))))

/-- `QLearningAlgorithm.result`: substitute a uniformly random valid state
(index `subIdx`) when the remembered next state is not a state key, then
apply the update above. -/
def QLearningAlgorithm.result (s : QLearningAlgorithm) (res : ℚ)
    (subIdx t : ℕ) : Option QLearningAlgorithm :=
  (s.next_state).bind (fun ns =>
    if (s.states.map Prod.fst).contains ns then s.result_update res ns ns t
    else (choiceIdx (s.states.map Prod.fst) subIdx).bind (fun nsa =>
      s.result_update res ns nsa t))

/-- `QLearningAlgorithm.reset`: re-construct from the current (never mutated)
parameter fields, drawing a fresh random initial state (index `i`). -/
def QLearningAlgorithm.reset (s : QLearningAlgorithm) (i : ℕ) :
    Option QLearningAlgorithm :=
  QLearningAlgorithm.init s.arch
    (s.epsilon, s.gamma, s.learning_rate, s.initial_q) i

/-! ## TableauAlgorithm -/

/-- The per-state bucket vectors of `TableauAlgorithm`. -/
structure TabState where
  Q : List ℚ
  N : List ℕ

/-- `np.amax` over a vector: raises on empty. -/
def vecAmax : List ℚ → Option ℚ
  | [] => none
  | x :: xs => some (xs.foldl max x)

/-- `TableauAlgorithm.random_argmax` (the vector version): a random index
among the maximal entries (tie index `t`). -/
def random_argmaxVec (v : List ℚ) (t : ℕ) : Option ℕ :=
  match vecAmax v with
  | none => none
  | some m => choiceIdx ((v.enum.filter (fun p => decide (p.2 = m))).map Prod.fst) t

/-- State of `TableauAlgorithm`.  `params` is the 5-vector
`[epsilon, gamma, initial_q, min_epsilon, action_size]`. -/
structure TableauAlgorithm where
  arch : Arch
  params : ℚ × ℚ × ℚ × ℚ × ℕ
  epsilon : ℚ
  gamma : ℚ
  initial_q : ℚ
  min_epsilon : ℚ
  action_size : ℕ
  fault_injections : List String
  states : List (String × TabState)
  last_state : Option String
  last_action : Option ℕ

/-- `TableauAlgorithm.__init__`: a fault-qualified state per non-excluded
operation and fault type, each holding `action_size` buckets with Q at the
configured initial value and N at 1. -/
def TableauAlgorithm.init (arch : Arch) (params : ℚ × ℚ × ℚ × ℚ × ℕ) :
    TableauAlgorithm :=
  { arch := arch
    params := params
    epsilon := params.1
    gamma := params.2.1
    initial_q := params.2.2.1
    min_epsilon := params.2.2.2.1
    action_size := params.2.2.2.2
    fault_injections := DecisionEngine.fault_injections arch
    states := (arch.operations.filter
        (fun op => !(excludedNames.contains op.name))).flatMap
      (fun op => fault_types.map
        (fun fa => (op.name ++ "-" ++ fa,
          { Q := List.replicate params.2.2.2.2 params.2.2.1
            N := List.replicate params.2.2.2.2 1 : TabState })))
    last_state := none
    last_action := none }

/-- First half of `TableauAlgorithm.get_action`'s greedy branch: every state
chooses its randomized argmax bucket (tie index `ties` applied to the state's
position); raises if any per-state argmax raises (empty bucket vector). -/
def TableauAlgorithm.assignments (s : TableauAlgorithm) (ties : ℕ → ℕ) :
    Option (List (String × ℕ)) :=
  s.states.enum.mapM (fun p =>
    (random_argmaxVec p.2.2.Q (ties p.1)).map (fun bk => (p.2.1, bk)))

/-- `TableauAlgorithm.get_action`.  Greedy branch (draw `r ≥ ε`): after the
bucket assignment, the first non-empty bucket in index order is scanned and a
uniformly random state in it returned (index `c`); falling through all empty
buckets returns Python `None` (modelled `none`).  Exploration branch: a
uniformly random bucket (`np.random.randint`, raising when `action_size = 0`)
and an independent uniformly random state (index `c2`). -/
def TableauAlgorithm.get_action (s : TableauAlgorithm) (r : ℚ)
    (ties : ℕ → ℕ) (c b c2 : ℕ) : Option (String × TableauAlgorithm) :=
  if s.epsilon ≤ r then
    (s.assignments ties)
      |>.bind (fun assign =>
        ((List.range s.action_size).find? (fun i =>
            !((assign.filter (fun q => q.2 == i)).isEmpty))).bind (fun i =>
          (choiceIdx ((assign.filter (fun q => q.2 == i)).map Prod.fst) c).bind
            (fun ls =>
              some (ls, { s with last_state := some ls, last_action := some i }))))
  else
    (if 0 < s.action_size then some (b % s.action_size) else none).bind
      (fun la =>
        (choiceIdx (s.states.map Prod.fst) c2).bind (fun ls =>
          some (ls, { s with last_state := some ls, last_action := some la })))

/-- `TableauAlgorithm.result`: bump N and apply the incremental mean at the
remembered state/bucket, then decay ε. -/
def TableauAlgorithm.result (s : TableauAlgorithm) (res : ℚ) :
    Option TableauAlgorithm := do
  let ls ← s.last_state
  let la ← s.last_action
  let st ← s.states.lookup ls
  let n0 ← st.N.get? la
  let prev_q ← st.Q.get? la
  let n := n0 + 1
  let st2 : TabState :=
    { N := st.N.set la n
      Q := st.Q.set la (prev_q + 1 / (n : ℚ) * (res - prev_q)) }
  some { s with
    states := setVal s.states ls st2
    epsilon := (s.epsilon - s.min_epsilon) * s.gamma + s.min_epsilon }

/-- `TableauAlgorithm.reset`: re-construct from the stored original parameter
vector. -/
def TableauAlgorithm.reset (s : TableauAlgorithm) : TableauAlgorithm :=
  TableauAlgorithm.init s.arch s.params

/-! ## NeuralNetworkAlgorithm

The sklearn classifier itself computes with floating point and is not
modelled; what the claims need is which construction/fit calls produced the
current model, recorded symbolically by `MLModel`. -/

/-- Symbolic record of the classifier: a fresh
`MLPClassifier(hidden_layer_sizes, warm_start, ...)`, or the result of a
`fit`/`partial_fit` call on a previous model with the given training data. -/
inductive MLModel where
  | mlp (hidden : ℕ) (warm_start : Bool)
  | fit (base : MLModel) (x : List (List ℚ)) (y : List ℚ)
  | pfit (base : MLModel) (x : List (List ℚ)) (y : List ℚ)

/-- The per-state feature vector (length 8): circuit-breaker flag, dependency
count, instance count, four lagged-outcome slots, fault-type indicator. -/
def extract_features (op : Operation) (fault : String) (bits : Fin 4 → Bool) :
    List ℚ :=
  [if op.circuitbreaker.isSome then 1 else 0,
   (op.dependencies.length : ℚ), (op.instances : ℚ)]
  ++ (List.ofFn (fun i : Fin 4 => if bits i then (1 : ℚ) else 0))
  ++ [if fault = "abort" then 0 else 1]

/-- State of `NeuralNetworkAlgorithm`.  `params` is the 1-vector
`[hidden_size]`.  Python stores the *list object* `self.states[state]` into
the replay buffer, so a stored experience aliases the live per-state feature
vector; the embedding stores the state key and dereferences it through the
current `states` map wherever Python reads the stored list. -/
structure NeuralNetworkAlgorithm where
  arch : Arch
  params : ℕ
  train_mode : Bool
  experience_length : ℕ
  experience_batch_size : ℕ
  experience : ExperienceReplay (String × ℚ)
  iteration_counter : ℕ
  hidden_size : ℕ
  model : MLModel
  model_fit : Bool
  fault_injections : List String
  states : List (String × List ℚ)
  last_state : Option String

/-- `NeuralNetworkAlgorithm.__init__`: a feature vector per fault-qualified
non-excluded operation; the four lagged-outcome slots of the `n`-th state are
initialized from the random bit draws `bits (4n) .. bits (4n+3)`. -/
def NeuralNetworkAlgorithm.init (arch : Arch) (params : ℕ) (bits : ℕ → Bool) :
    NeuralNetworkAlgorithm :=
  let pairs := (arch.operations.filter
      (fun op => !(excludedNames.contains op.name))).flatMap
    (fun op => fault_types.map (fun fa => (op, fa)))
  { arch := arch
    params := params
    train_mode := true
    experience_length := 10000
    experience_batch_size := 1000
    experience := { memory := [], max_memory := 10000, discount := 9 / 10 }
    iteration_counter := 0
    hidden_size := params
    model := MLModel.mlp params true
    model_fit := false
    fault_injections := DecisionEngine.fault_injections arch
    states := pairs.enum.map (fun p =>
      (p.2.1.name ++ "-" ++ p.2.2,
       extract_features p.2.1 p.2.2 (fun j => bits (4 * p.1 + j))))
    last_state := none }

/-- `NeuralNetworkAlgorithm.get_action`: a state sampled from the categorical
distribution over normalized success probabilities.  The probabilities
(classifier output, or uniform draws before the first fit) only shape the
distribution of `random.choices`; the drawn key is modelled by the injected
index `c`, which ranges over exactly the state keys. -/
def NeuralNetworkAlgorithm.get_action (s : NeuralNetworkAlgorithm) (c : ℕ) :
    Option (String × NeuralNetworkAlgorithm) :=
  match choiceIdx (s.states.map Prod.fst) c with
  | none => none
  | some k => some (k, { s with last_state := some k })

/-- `NeuralNetworkAlgorithm.learn_from_experience`: draw a batch, unzip it
(dereferencing each stored feature reference through the current `states`
map), then `partial_fit` if already fit — falling back to a fresh
non-warm-start model refit when that raises `ValueError` (injected outcome
`pfit_fails`) — else an initial `fit`. -/
def NeuralNetworkAlgorithm.learn_from_experience (s : NeuralNetworkAlgorithm)
    (sampler : ℕ → List ℚ → ℕ → List ℕ) (pfit_fails : Bool) :
    NeuralNetworkAlgorithm :=
  let be := s.experience.get_batch s.experience_batch_size sampler
  let x := be.1.map (fun e => ((s.states.lookup e.1).getD []))
  let y := be.1.map Prod.snd
  if s.model_fit then
    if pfit_fails then
      { s with experience := be.2
               model := MLModel.fit (MLModel.mlp s.hidden_size false) x y
               model_fit := true }
    else
      { s with experience := be.2, model := MLModel.pfit s.model x y }
  else
    { s with experience := be.2
             model := MLModel.fit s.model x y
             model_fit := true }

/-- `NeuralNetworkAlgorithm.result`: when training is enabled, store the live
feature-vector reference with the outcome, shift the lagged-outcome slots
(indices 3..6) down and write the new outcome at index 3, then retrain on the
1st and every 5th call. -/
def NeuralNetworkAlgorithm.result (s : NeuralNetworkAlgorithm) (res : ℚ)
    (sampler : ℕ → List ℚ → ℕ → List ℕ) (pfit_fails : Bool) :
    Option NeuralNetworkAlgorithm :=
  if !s.train_mode then some s
  else
    (s.last_state).bind (fun ls =>
      (s.states.lookup ls).bind (fun f =>
        if 6 < f.length then
          let s1 := { s with iteration_counter := s.iteration_counter + 1 }
          let s2 := { s1 with experience := s1.experience.remember (ls, res) }
          let f2 := (((f.set 6 (f.getD 5 0)).set 5 (f.getD 4 0)).set 4
            (f.getD 3 0)).set 3 res
          let s3 := { s2 with states := setVal s2.states ls f2 }
          if s3.iteration_counter = 1 ∨ s3.iteration_counter % 5 = 0 then
            some (s3.learn_from_experience sampler pfit_fails)
          else some s3
        else none))

/-- `NeuralNetworkAlgorithm.reset`: re-construct from the stored parameters,
drawing fresh random lag bits. -/
def NeuralNetworkAlgorithm.reset (s : NeuralNetworkAlgorithm)
    (bits : ℕ → Bool) : NeuralNetworkAlgorithm :=
  NeuralNetworkAlgorithm.init s.arch s.params bits

/-! ## Event sequences

A propose/feedback sequence is a list of events, each carrying the values its
random draws produced.  Running a sequence threads the policy state through
`Option` (an event that raises aborts the run). -/

/-- Run a list of events through a stepping function, propagating errors. -/
def runEvents {S E : Type} (step : S → E → Option S) (s : S) (evs : List E) :
    Option S :=
  evs.foldlM step s

/-- Events of a `BanditEpsilonAlgorithm` trial. -/
inductive BEEvent where
  | propose (r : ℚ) (i : ℕ)
  | feedback (res : ℚ)

/-- One event step of `BanditEpsilonAlgorithm`. -/
def BEstep (s : BanditEpsilonAlgorithm) : BEEvent → Option BanditEpsilonAlgorithm
  | BEEvent.propose r i => (s.get_action r i).map Prod.snd
  | BEEvent.feedback res => s.result res

/-- Events of a `BanditOptimisticAlgorithm` trial. -/
inductive BOEvent where
  | propose
  | feedback (res : ℚ)

/-- One event step of `BanditOptimisticAlgorithm`. -/
def BOstep (s : BanditOptimisticAlgorithm) :
    BOEvent → Option BanditOptimisticAlgorithm
  | BOEvent.propose => s.get_action.map Prod.snd
  | BOEvent.feedback res => s.result res

/-- Events of a `RandomAlgorithm` trial. -/
inductive RndEvent where
  | propose (i : ℕ)
  | feedback (res : ℚ)

/-- One event step of `RandomAlgorithm` (propose mutates nothing). -/
def Rndstep (s : RandomAlgorithm) : RndEvent → Option RandomAlgorithm
  | RndEvent.propose i => (s.get_action i).map (fun _ => s)
  | RndEvent.feedback res => s.result res

/-- Events of a `QLearningAlgorithm` trial. -/
inductive QLEvent where
  | propose (r : ℚ) (t c f : ℕ)
  | feedback (res : ℚ) (subIdx t : ℕ)

/-- One event step of `QLearningAlgorithm`. -/
def QLstep (s : QLearningAlgorithm) : QLEvent → Option QLearningAlgorithm
  | QLEvent.propose r t c f => (s.get_action r t c f).map Prod.snd
  | QLEvent.feedback res subIdx t => s.result res subIdx t

/-- Events of a `TableauAlgorithm` trial. -/
inductive TabEvent where
  | propose (r : ℚ) (ties : ℕ → ℕ) (c b c2 : ℕ)
  | feedback (res : ℚ)

/-- One event step of `TableauAlgorithm`. -/
def Tabstep (s : TableauAlgorithm) : TabEvent → Option TableauAlgorithm
  | TabEvent.propose r ties c b c2 => (s.get_action r ties c b c2).map Prod.snd
  | TabEvent.feedback res => s.result res

/-- Events of a `NeuralNetworkAlgorithm` trial. -/
inductive NNEvent where
  | propose (c : ℕ)
  | feedback (res : ℚ) (sampler : ℕ → List ℚ → ℕ → List ℕ) (pfit_fails : Bool)

/-- One event step of `NeuralNetworkAlgorithm`. -/
def NNstep (s : NeuralNetworkAlgorithm) :
    NNEvent → Option NeuralNetworkAlgorithm
  | NNEvent.propose c => (s.get_action c).map Prod.snd
  | NNEvent.feedback res sampler pfit_fails => s.result res sampler pfit_fails

/-! ## Concrete instances used by the counterexamples and witnesses -/

/-- Operation named by one of the excluded names. -/
def opA1 : Operation :=
  { name := "a1", circuitbreaker := none, dependencies := [], instances := 1 }

/-- A plain operation `b`. -/
def opB : Operation :=
  { name := "b", circuitbreaker := none, dependencies := [], instances := 1 }

/-- The spec scenario operation `op1`: no dependencies, no circuit breaker,
instance count 2. -/
def opOp1 : Operation :=
  { name := "op1", circuitbreaker := none, dependencies := [], instances := 2 }

/-- The spec scenario operation `op2`, depending on `op1`. -/
def opOp2 : Operation :=
  { name := "op2", circuitbreaker := none, dependencies := ["op1"],
    instances := 1 }

/-- The spec scenario architecture: `op1` and `op2`, with `op2` the only
operation with an incoming dependency (`op1`). -/
def archScenario : Arch :=
  { operations := [opOp1, opOp2]
    incoming := fun n => if n = "op2" then [opOp1] else [] }

/-- Architecture in which the excluded operation `a1` is an incoming
dependency of `b`. -/
def archDepA1 : Arch :=
  { operations := [opA1, opB]
    incoming := fun n => if n = "b" then [opA1] else [] }

/-- Architecture in which the excluded operation `a1` itself has an incoming
dependency, making it a QLearning state. -/
def archKeyA1 : Arch :=
  { operations := [opA1, opB]
    incoming := fun n => if n = "a1" then [opB] else [] }

/-- The empty architecture: zero operations, hence zero eligible operations. -/
def archEmpty : Arch :=
  { operations := [], incoming := fun _ => [] }

/-- Concrete replay buffer for the C8 witness. -/
def erC8 : ExperienceReplay ℕ :=
  { memory := [10, 20, 30], max_memory := 5, discount := 9 / 10 }

/-- Concrete without-replacement sampler (first `k` indices) for the C8
witness. -/
def samplerC8 : ℕ → List ℚ → ℕ → List ℕ :=
  fun _ _ k => List.range k

/-- A QLearning configuration used by the C7 witness: the scenario
architecture's single state `op2` with single action `op1`, zero parameters,
after a proposal that remembered next state `op1`. -/
def qlC7 : QLearningAlgorithm :=
  { arch := archScenario
    params := (0, 0, 0, 0)
    epsilon := 0
    gamma := 0
    learning_rate := 0
    initial_q := 0
    fault_injections := fault_injections archScenario
    states := [("op2", { Q := [("op1", 0)], N := [("op1", 0)] })]
    state := "op2"
    next_state := some "op1" }

/-- The QLearning instance the C9 witness starts from: exactly what
construction on the scenario architecture with parameters `(1,2,3,4)` and
draw 0 produces. -/
def qlC9 : QLearningAlgorithm :=
  { arch := archScenario
    params := (1, 2, 3, 4)
    epsilon := 1
    gamma := 2
    learning_rate := 3
    initial_q := 4
    fault_injections := fault_injections archScenario
    states := QLearningAlgorithm.states_init archScenario 4
    state := "op2"
    next_state := none }

/-- The NeuralPolicy instance the C10 witness uses: freshly constructed on
the scenario architecture (zero random lag bits) right after a proposal of
`op1-abort`. -/
def nnC10 : NeuralNetworkAlgorithm :=
  { NeuralNetworkAlgorithm.init archScenario 4 (fun _ => false) with
      last_state := some "op1-abort" }

/-! ## Run lemmas -/

theorem runEvents_nil {S E : Type} (step : S → E → Option S) (s : S) :
    runEvents step s [] = some s := rfl

theorem runEvents_cons {S E : Type} (step : S → E → Option S) (s : S)
    (e : E) (evs : List E) :
    runEvents step s (e :: evs) =
      (step s e).bind (fun s2 => runEvents step s2 evs) := by
  simp [runEvents, List.foldlM_cons]

/-- If every single step preserves `P`, so does any run. -/
theorem runEvents_invariant {S E : Type} (step : S → E → Option S)
    (P : S → Prop) (hstep : ∀ s e s2, step s e = some s2 → P s → P s2) :
    ∀ (evs : List E) (s s2 : S),
      runEvents step s evs = some s2 → P s → P s2 := by
  intro evs
  induction evs with
  | nil => intro s s2 h hP; rw [runEvents_nil] at h; cases h; exact hP
  | cons e evs ih =>
    intro s s2 h hP
    rw [runEvents_cons] at h
    cases he : step s e with
    | none => rw [he] at h; cases h
    | some s1 =>
      rw [he] at h
      exact ih s1 s2 h (hstep s e s1 he hP)

/-! ## Helper lemmas on the dict/choice primitives -/

theorem choiceIdx_mem {β : Type} {l : List β} {i : ℕ} {x : β}
    (h : choiceIdx l i = some x) : x ∈ l := by
  unfold choiceIdx at h
  exact List.get?_mem h

theorem choiceIdx_isSome_of_ne_nil {β : Type} {l : List β} (i : ℕ)
    (h : l ≠ []) : (choiceIdx l i).isSome := by
  unfold choiceIdx
  rw [List.get?_eq_get (Nat.mod_lt i (List.length_pos.mpr h))]
  rfl

theorem foldl_choose_mem {α : Type} (f : α → α → α)
    (hf : ∀ a b, f a b = a ∨ f a b = b) :
    ∀ (l : List α) (a : α), l.foldl f a = a ∨ l.foldl f a ∈ l := by
  intro l
  induction l with
  | nil => intro a; left; rfl
  | cons x xs ih =>
    intro a
    simp only [List.foldl_cons]
    rcases hf a x with hx | hx
    · rw [hx]
      rcases ih a with h | h
      · left; exact h
      · right; exact List.mem_cons_of_mem x h
    · rw [hx]
      rcases ih x with h | h
      · right; rw [h]; exact List.mem_cons_self x xs
      · right; exact List.mem_cons_of_mem x h

theorem maxItem_mem {l : List (String × ℚ)} {p : String × ℚ}
    (h : maxItem l = some p) : p ∈ l := by
  match l with
  | [] => simp [maxItem] at h
  | x :: xs =>
    simp only [maxItem, Option.some.injEq] at h
    have := foldl_choose_mem (fun b a => if b.2 < a.2 then a else b)
      (fun a b => by by_cases hc : a.2 < b.2 <;> simp [hc]) xs x
    rw [h] at this
    rcases this with h2 | h2
    · rw [h2]; simp
    · simp [h2]

theorem maxItem_is_max {l : List (String × ℚ)} {p : String × ℚ}
    (h : maxItem l = some p) : ∀ q ∈ l, q.2 ≤ p.2 := by
  match l with
  | [] => simp [maxItem] at h
  | x :: xs =>
    simp only [maxItem, Option.some.injEq] at h
    have key : ∀ (ys : List (String × ℚ)) (a : String × ℚ),
        a.2 ≤ (ys.foldl (fun b a => if b.2 < a.2 then a else b) a).2 ∧
        ∀ q ∈ ys, q.2 ≤ (ys.foldl (fun b a => if b.2 < a.2 then a else b) a).2 := by
      intro ys
      induction ys with
      | nil => intro a; exact ⟨le_refl _, by simp⟩
      | cons y ys ih =>
        intro a
        simp only [List.foldl_cons]
        have hstep : a.2 ≤ (if a.2 < y.2 then y else a).2 ∧
            y.2 ≤ (if a.2 < y.2 then y else a).2 := by
          by_cases hc : a.2 < y.2
          · simp [hc]; exact le_of_lt hc
          · simp [hc]; exact le_of_not_lt hc
        refine ⟨le_trans hstep.1 (ih _).1, ?_⟩
        intro q hq
        rcases List.mem_cons.mp hq with rfl | hq2
        · exact le_trans hstep.2 (ih _).1
        · exact (ih _).2 q hq2
    intro q hq
    rw [← h] at *
    rcases List.mem_cons.mp hq with rfl | hq2
    · exact (key xs q).1
    · exact (key xs x).2 q hq2

theorem lookup_cons_self {β : Type} (k : String) (x2 : β)
    (xs : List (String × β)) : ((k, x2) :: xs).lookup k = some x2 := by
  simp [List.lookup]

theorem lookup_cons_ne {β : Type} {k2 x1 : String} (x2 : β)
    (xs : List (String × β)) (h : (k2 == x1) = false) :
    ((x1, x2) :: xs).lookup k2 = xs.lookup k2 := by
  simp [List.lookup, h]

theorem setVal_nil {β : Type} (k : String) (v : β) :
    setVal ([] : List (String × β)) k v = [] := rfl

theorem setVal_cons_self {β : Type} (k : String) (x2 v : β)
    (xs : List (String × β)) :
    setVal ((k, x2) :: xs) k v = (k, v) :: setVal xs k v := by
  simp [setVal]

theorem setVal_cons_ne {β : Type} {x1 k : String} (x2 : β) (v : β)
    (xs : List (String × β)) (h : x1 ≠ k) :
    setVal ((x1, x2) :: xs) k v = (x1, x2) :: setVal xs k v := by
  simp [setVal, h]

/-- With keys unique (a Python dict), a membership certifies the lookup. -/
theorem lookup_eq_some_of_mem_nodup {β : Type} {l : List (String × β)}
    {k : String} {v : β} (hmem : (k, v) ∈ l)
    (hnd : (l.map Prod.fst).Nodup) : l.lookup k = some v := by
  induction l with
  | nil => simp at hmem
  | cons x xs ih =>
    obtain ⟨x1, x2⟩ := x
    simp only [List.map_cons, List.nodup_cons] at hnd
    rcases List.mem_cons.mp hmem with heq | hmem2
    · obtain ⟨h1, h2⟩ := Prod.mk.injEq .. ▸ heq
      subst h1; subst h2
      exact lookup_cons_self k v xs
    · have hne : (k == x1) = false := by
        refine beq_eq_false_iff_ne.mpr ?_
        intro hk
        exact hnd.1 (hk ▸ List.mem_map.mpr ⟨(k, v), hmem2, rfl⟩)
      rw [lookup_cons_ne x2 xs hne]
      exact ih hmem2 hnd.2

/-- After in-place assignment of key `k`, looking `k` up yields the new
value, provided `k` was present. -/
theorem lookup_setVal_self {β : Type} {l : List (String × β)} {k : String}
    {v0 : β} (v : β) (h : l.lookup k = some v0) :
    (setVal l k v).lookup k = some v := by
  induction l with
  | nil => simp [List.lookup] at h
  | cons x xs ih =>
    obtain ⟨x1, x2⟩ := x
    by_cases hx : x1 = k
    · subst hx
      rw [setVal_cons_self, lookup_cons_self]
    · have hne : (k == x1) = false :=
        beq_eq_false_iff_ne.mpr (fun hh => hx hh.symm)
      rw [lookup_cons_ne x2 xs hne] at h
      rw [setVal_cons_ne x2 v xs hx, lookup_cons_ne x2 (setVal xs k v) hne]
      exact ih h

/-- Assignment never touches other keys. -/
theorem lookup_setVal_other {β : Type} {l : List (String × β)} {k k2 : String}
    (v : β) (hne : k2 ≠ k) :
    (setVal l k v).lookup k2 = l.lookup k2 := by
  induction l with
  | nil => rfl
  | cons x xs ih =>
    obtain ⟨x1, x2⟩ := x
    by_cases hx : x1 = k
    · subst hx
      have h2 : (k2 == x1) = false := beq_eq_false_iff_ne.mpr hne
      rw [setVal_cons_self, lookup_cons_ne v (setVal xs x1 v) h2,
        lookup_cons_ne x2 xs h2]
      exact ih
    · rw [setVal_cons_ne x2 v xs hx]
      by_cases hk2 : x1 = k2
      · subst hk2
        rw [lookup_cons_self, lookup_cons_self]
      · have h2 : (k2 == x1) = false :=
          beq_eq_false_iff_ne.mpr (fun hh => hk2 hh.symm)
        rw [lookup_cons_ne x2 (setVal xs k v) h2, lookup_cons_ne x2 xs h2]
        exact ih

/-- Assignment preserves the key list (insertion order included). -/
theorem setVal_keys {β : Type} (l : List (String × β)) (k : String) (v : β) :
    (setVal l k v).map Prod.fst = l.map Prod.fst := by
  induction l with
  | nil => rfl
  | cons x xs ih =>
    obtain ⟨x1, x2⟩ := x
    by_cases hx : x1 = k
    · subst hx
      rw [setVal_cons_self]
      simpa using ih
    · rw [setVal_cons_ne x2 v xs hx]
      simpa using ih

/-! ## ExperienceReplay lemmas -/

theorem trim_memory {α : Type} (er : ExperienceReplay α) :
    er.trim.memory = er.memory.drop (er.memory.length - er.max_memory) := by
  by_cases h : er.max_memory < er.memory.length
  · simp [ExperienceReplay.trim, h]
  · simp [ExperienceReplay.trim, h,
      Nat.sub_eq_zero_of_le (le_of_not_lt h)]

theorem trim_length {α : Type} (er : ExperienceReplay α) :
    er.trim.memory.length = min er.memory.length er.max_memory := by
  rw [trim_memory, List.length_drop]
  omega

theorem get_batch_snd {α : Type} (er : ExperienceReplay α) (b : ℕ)
    (sampler : ℕ → List ℚ → ℕ → List ℕ) :
    (er.get_batch b sampler).2 = er.trim := by
  by_cases h : b < er.trim.memory.length <;>
    simp [ExperienceReplay.get_batch, h]

theorem filterMap_get?_length {α : Type} (l : List α) :
    ∀ (idxs : List ℕ), (∀ i ∈ idxs, i < l.length) →
      (idxs.filterMap l.get?).length = idxs.length := by
  intro idxs
  induction idxs with
  | nil => intro _; rfl
  | cons i is ih =>
    intro h
    have hi : i < l.length := h i (by simp)
    simp only [List.filterMap_cons, List.get?_eq_get hi, List.length_cons]
    rw [ih (fun j hj => h j (by simp [hj]))]

theorem range_filterMap_get? {α : Type} (l : List α) :
    (List.range l.length).filterMap l.get? = l := by
  induction l with
  | nil => rfl
  | cons x xs ih =>
    rw [List.length_cons, List.range_succ_eq_map]
    simp only [List.filterMap_cons, List.get?_cons_zero]
    rw [List.filterMap_map]
    have : (fun i => (x :: xs).get? (Nat.succ i)) = xs.get? := by
      funext i
      exact List.get?_cons_succ ..
    show x :: List.filterMap ((x :: xs).get? ∘ Nat.succ) (List.range xs.length)
        = x :: xs
    have h2 : ((x :: xs).get? ∘ Nat.succ) = xs.get? := by
      funext i
      simp [Function.comp, List.get?_cons_succ]
    rw [h2, ih]

theorem timerankWeights_get? (n i : ℕ) (h : i < n) :
    (timerankWeights n).get? i = some ((i + 1 : ℚ) / timerankSum n) := by
  unfold timerankWeights
  rw [List.get?_map, List.get?_range h]
  rfl

theorem timerankWeights_head? (n : ℕ) (h : 0 < n) :
    (timerankWeights n).head? = some ((1 : ℚ) / timerankSum n) := by
  obtain ⟨m, rfl⟩ := Nat.exists_eq_add_of_lt h
  simp only [Nat.zero_add] at *
  unfold timerankWeights
  rw [List.range_succ_eq_map]
  simp

theorem timerankWeights_getLast? (n : ℕ) (h : 0 < n) :
    (timerankWeights n).getLast? = some ((n : ℚ) * ((1 : ℚ) / timerankSum n)) := by
  obtain ⟨m, rfl⟩ := Nat.exists_eq_add_of_lt h
  simp only [Nat.zero_add] at *
  unfold timerankWeights
  rw [List.range_succ, List.map_append]
  simp only [List.map_cons, List.map_nil, List.getLast?_concat]
  congr 1
  push_cast
  ring

/-! ## Claim C2 (ExperienceReplay capacity) -/

/-- C2 counterexample: `remember` alone never evicts.  A buffer constructed
with `max_memory = 1` holds 2 entries after two `remember` calls and no
`get_batch`, exceeding its capacity — refuting the claim that the buffer
length never exceeds `max_memory` after any sequence of `remember` calls. -/
theorem C2_counterexample :
    ((({ memory := [], max_memory := 1, discount := 9 / 10 } :
        ExperienceReplay ℕ).remember 7).remember 8).memory.length = 2
    ∧ (({ memory := [], max_memory := 1, discount := 9 / 10 } :
        ExperienceReplay ℕ)).max_memory = 1 := by
  constructor <;> rfl

/-- C2 (amended): `remember` appends unconditionally and never evicts, so the
buffer can exceed `max_memory`; the eviction of oldest entries down to
capacity happens at the start of `get_batch`, after which the held buffer has
length `min length max_memory ≤ max_memory`. -/
theorem C2_remember_appends_eviction_in_get_batch {α : Type} :
    (∀ (er : ExperienceReplay α) (e : α),
      (er.remember e).memory = er.memory ++ [e])
    ∧ (∀ (er : ExperienceReplay α) (b : ℕ)
        (sampler : ℕ → List ℚ → ℕ → List ℕ),
      ((er.get_batch b sampler).2).memory
          = er.memory.drop (er.memory.length - er.max_memory)
        ∧ ((er.get_batch b sampler).2).memory.length
          = min er.memory.length er.max_memory
        ∧ ((er.get_batch b sampler).2).memory.length ≤ er.max_memory) := by
  refine ⟨fun er e => rfl, fun er b sampler => ?_⟩
  rw [get_batch_snd, trim_memory, ← trim_memory, trim_length]
  exact ⟨rfl, rfl, Nat.min_le_right ..⟩

/-! ## Claim C8 (ExperienceReplay sampling) -/

/-- C8: `get_batch` returns the whole (post-eviction) buffer when it is
smaller than the batch size; otherwise the batch consists of `batch_size`
entries at pairwise-distinct buffer positions, drawn by the without-replacement
sampler whose selection weights are `(i+1)/timerankSum` for the `i`-th oldest
entry — linearly increasing with recency, the newest of `n` entries `n` times
the weight of the oldest. -/
theorem C8_get_batch_spec {α : Type} (er : ExperienceReplay α) (b : ℕ)
    (sampler : ℕ → List ℚ → ℕ → List ℕ)
    (hs : ∀ n w k, k < n → (sampler n w k).length = k
        ∧ (sampler n w k).Nodup ∧ ∀ i ∈ sampler n w k, i < n) :
    (er.trim.memory.length < b →
      (er.get_batch b sampler).1 = er.trim.memory)
    ∧ (b ≤ er.trim.memory.length →
      ∃ idxs : List ℕ, idxs.Nodup ∧ idxs.length = b
        ∧ (∀ i ∈ idxs, i < er.trim.memory.length)
        ∧ (er.get_batch b sampler).1 = idxs.filterMap (er.trim.memory.get?)
        ∧ (er.get_batch b sampler).1.length = b)
    ∧ (b < er.trim.memory.length →
      (er.get_batch b sampler).1
        = (sampler er.trim.memory.length
            (timerankWeights er.trim.memory.length) b).filterMap
            (er.trim.memory.get?))
    ∧ (∀ n i : ℕ, i < n → (timerankWeights n).get? i
        = some ((i + 1 : ℚ) / timerankSum n))
    ∧ (∀ n : ℕ, 0 < n →
        (timerankWeights n).head? = some ((1 : ℚ) / timerankSum n)
        ∧ (timerankWeights n).getLast?
          = some ((n : ℚ) * ((1 : ℚ) / timerankSum n))) := by
  have hfst : ∀ hlt : b < er.trim.memory.length,
      (er.get_batch b sampler).1
        = (sampler er.trim.memory.length
            (timerankWeights er.trim.memory.length) b).filterMap
            (er.trim.memory.get?) := by
    intro hlt
    simp only [ExperienceReplay.get_batch, if_pos hlt]
  have hfst2 : ∀ _ : ¬ b < er.trim.memory.length,
      (er.get_batch b sampler).1 = er.trim.memory := by
    intro h2
    simp only [ExperienceReplay.get_batch, if_neg h2]
  refine ⟨?_, ?_, ?_, fun n i h => timerankWeights_get? n i h,
    fun n h => ⟨timerankWeights_head? n h, timerankWeights_getLast? n h⟩⟩
  · intro h
    exact hfst2 (by omega)
  · intro h
    rcases Nat.lt_or_ge b er.trim.memory.length with hlt | hge
    · obtain ⟨hlen, hnd, hrange⟩ :=
        hs er.trim.memory.length (timerankWeights er.trim.memory.length) b hlt
      refine ⟨sampler er.trim.memory.length
          (timerankWeights er.trim.memory.length) b, hnd, hlen, hrange,
        hfst hlt, ?_⟩
      rw [hfst hlt, filterMap_get?_length _ _ hrange, hlen]
    · have heq : b = er.trim.memory.length := le_antisymm h hge
      have h2 : ¬ b < er.trim.memory.length := by omega
      refine ⟨List.range er.trim.memory.length, List.nodup_range _,
        by rw [List.length_range, heq], fun i hi => List.mem_range.mp hi,
        ?_, ?_⟩
      · rw [range_filterMap_get?, hfst2 h2]
      · rw [hfst2 h2, heq]
  · intro hlt
    exact hfst hlt

/-- C8 witness: the spec applied to the concrete 3-entry buffer `erC8` with
batch size 2 and the sampler `samplerC8` picking the first `k` indices. -/
theorem C8_get_batch_spec_witness :
    (erC8.trim.memory.length < 2 →
      (erC8.get_batch 2 samplerC8).1 = erC8.trim.memory)
    ∧ (2 ≤ erC8.trim.memory.length →
      ∃ idxs : List ℕ, idxs.Nodup ∧ idxs.length = 2
        ∧ (∀ i ∈ idxs, i < erC8.trim.memory.length)
        ∧ (erC8.get_batch 2 samplerC8).1 = idxs.filterMap (erC8.trim.memory.get?)
        ∧ (erC8.get_batch 2 samplerC8).1.length = 2)
    ∧ (2 < erC8.trim.memory.length →
      (erC8.get_batch 2 samplerC8).1
        = (samplerC8 erC8.trim.memory.length
            (timerankWeights erC8.trim.memory.length) 2).filterMap
            (erC8.trim.memory.get?))
    ∧ (∀ n i : ℕ, i < n → (timerankWeights n).get? i
        = some ((i + 1 : ℚ) / timerankSum n))
    ∧ (∀ n : ℕ, 0 < n →
        (timerankWeights n).head? = some ((1 : ℚ) / timerankSum n)
        ∧ (timerankWeights n).getLast?
          = some ((n : ℚ) * ((1 : ℚ) / timerankSum n))) :=
  C8_get_batch_spec erC8 2 samplerC8
    (fun _ _ k hk =>
      ⟨List.length_range k, List.nodup_range k,
        fun i hi => lt_trans (List.mem_range.mp hi) hk⟩)

/-! ## Claims C4 and C5 (construction and protocol errors) -/

theorem fault_injections_of_operations_nil {arch : Arch}
    (h : arch.operations = []) : fault_injections arch = [] := by
  simp [fault_injections, h]

/-- Inversion of a successful QLearning construction. -/
theorem qlearning_init_elim {arch : Arch} {p4 : ℚ × ℚ × ℚ × ℚ} {i : ℕ}
    {s : QLearningAlgorithm} (hs : QLearningAlgorithm.init arch p4 i = some s) :
    ∃ st0, choiceIdx ((QLearningAlgorithm.states_init arch p4.2.2.2).map
        Prod.fst) i = some st0
      ∧ s = { arch := arch
              params := p4
              epsilon := p4.1
              gamma := p4.2.1
              learning_rate := p4.2.2.1
              initial_q := p4.2.2.2
              fault_injections := fault_injections arch
              states := QLearningAlgorithm.states_init arch p4.2.2.2
              state := st0
              next_state := none } := by
  simp only [QLearningAlgorithm.init] at hs
  cases hch : choiceIdx ((QLearningAlgorithm.states_init arch p4.2.2.2).map
      Prod.fst) i with
  | none => rw [hch] at hs; cases hs
  | some st0 =>
    rw [hch] at hs
    exact ⟨st0, rfl, (Option.some.injEq .. ▸ hs).symm⟩

/-- `TableauAlgorithm.get_action` on an empty state table returns Python
`None` (greedy fall-through) or raises (exploration `random.choice` on an
empty list). -/
theorem tableau_get_action_states_nil (s : TableauAlgorithm)
    (hst : s.states = []) (r : ℚ) (ties : ℕ → ℕ) (c b c2 : ℕ) :
    s.get_action r ties c b c2 = none := by
  have hassign : s.assignments ties = some [] := by
    unfold TableauAlgorithm.assignments
    rw [hst]
    rfl
  unfold TableauAlgorithm.get_action
  by_cases hr : s.epsilon ≤ r
  · rw [if_pos hr, hassign]
    have hfind : (List.range s.action_size).find? (fun i =>
        !((([] : List (String × ℕ)).filter (fun q => q.2 == i)).isEmpty))
          = none := by
      apply List.find?_eq_none.mpr
      intro x _
      simp
    simp [hfind]
  · rw [if_neg hr, hst]
    by_cases ha : 0 < s.action_size <;> simp [ha, choiceIdx]

/-- C4 counterexample: on the architecture with zero (eligible) operations,
`BanditEpsilonAlgorithm.__init__` runs to completion — the embedded
constructor is a total function with no error path — and produces a silently
empty policy (empty universe, empty Q), whose first `propose()` is what
fails.  This refutes the claim that every policy fails at construction
time. -/
theorem C4_counterexample :
    (BanditEpsilonAlgorithm.init archEmpty (1, 1, 0)).fault_injections = []
    ∧ (BanditEpsilonAlgorithm.init archEmpty (1, 1, 0)).Q = []
    ∧ (BanditEpsilonAlgorithm.init archEmpty (1, 1, 0)).get_action 0 0 = none := by
  refine ⟨rfl, rfl, ?_⟩
  simp [BanditEpsilonAlgorithm.get_action, BanditEpsilonAlgorithm.init,
    archEmpty, fault_injections, choiceIdx, maxItem]

/-- C4 (amended): on an architecture with no operations (hence no eligible
operations) only QLearning fails at construction (it draws its initial state
from an empty state set); every other policy constructs successfully as a
silently empty instance — empty action universe / state table — and it is the
first `propose()` that fails instead. -/
theorem C4_empty_architecture_construction (arch : Arch)
    (h : arch.operations = []) (p3 : ℚ × ℚ × ℚ) (p1 : ℚ)
    (p4 : ℚ × ℚ × ℚ × ℚ) (p5 : ℚ × ℚ × ℚ × ℚ × ℕ) (hidden : ℕ)
    (bits : ℕ → Bool) (r : ℚ) (i : ℕ) (ties : ℕ → ℕ) (c b c2 : ℕ) :
    (BanditEpsilonAlgorithm.init arch p3).Q = []
    ∧ (BanditEpsilonAlgorithm.init arch p3).get_action r i = none
    ∧ (BanditOptimisticAlgorithm.init arch p1).Q = []
    ∧ (BanditOptimisticAlgorithm.init arch p1).get_action = none
    ∧ (TableauAlgorithm.init arch p5).states = []
    ∧ (TableauAlgorithm.init arch p5).get_action r ties c b c2 = none
    ∧ (NeuralNetworkAlgorithm.init arch hidden bits).states = []
    ∧ (NeuralNetworkAlgorithm.init arch hidden bits).get_action c = none
    ∧ (RandomAlgorithm.init arch).get_action i = none
    ∧ QLearningAlgorithm.init arch p4 i = none := by
  have hfi := fault_injections_of_operations_nil h
  refine ⟨?_, ?_, ?_, ?_, ?_, ?_, ?_, ?_, ?_, ?_⟩
  · simp [BanditEpsilonAlgorithm.init, hfi]
  · by_cases hr : r < p3.1 <;>
      simp [BanditEpsilonAlgorithm.get_action, BanditEpsilonAlgorithm.init,
        hfi, hr, choiceIdx, maxItem]
  · simp [BanditOptimisticAlgorithm.init, hfi]
  · simp [BanditOptimisticAlgorithm.get_action,
      BanditOptimisticAlgorithm.init, hfi, maxItem]
  · simp [TableauAlgorithm.init, h]
  · exact tableau_get_action_states_nil _ (by simp [TableauAlgorithm.init, h])
      r ties c b c2
  · simp [NeuralNetworkAlgorithm.init, h]
  · simp [NeuralNetworkAlgorithm.get_action, NeuralNetworkAlgorithm.init, h,
      choiceIdx]
  · simp [RandomAlgorithm.get_action, RandomAlgorithm.init, hfi, choiceIdx]
  · have hsts : QLearningAlgorithm.states_init arch p4.2.2.2 = [] := by
      simp [QLearningAlgorithm.states_init, h]
    simp [QLearningAlgorithm.init, hsts, choiceIdx]

/-- C4 witness: the amended statement instantiated at the concrete empty
architecture. -/
theorem C4_empty_architecture_construction_witness :
    (BanditEpsilonAlgorithm.init archEmpty (1, 2, 3)).Q = []
    ∧ (BanditEpsilonAlgorithm.init archEmpty (1, 2, 3)).get_action 0 0 = none
    ∧ (BanditOptimisticAlgorithm.init archEmpty 5).Q = []
    ∧ (BanditOptimisticAlgorithm.init archEmpty 5).get_action = none
    ∧ (TableauAlgorithm.init archEmpty (1, 2, 3, 4, 2)).states = []
    ∧ (TableauAlgorithm.init archEmpty (1, 2, 3, 4, 2)).get_action 0
        (fun _ => 0) 0 0 0 = none
    ∧ (NeuralNetworkAlgorithm.init archEmpty 4 (fun _ => false)).states = []
    ∧ (NeuralNetworkAlgorithm.init archEmpty 4 (fun _ => false)).get_action 0
        = none
    ∧ (RandomAlgorithm.init archEmpty).get_action 0 = none
    ∧ QLearningAlgorithm.init archEmpty (1, 2, 3, 4) 0 = none :=
  C4_empty_architecture_construction archEmpty rfl (1, 2, 3) 5 (1, 2, 3, 4)
    (1, 2, 3, 4, 2) 4 (fun _ => false) 0 0 (fun _ => 0) 0 0 0

/-- C5 counterexample: `RandomAlgorithm` inherits the base class's `pass`
feedback, so calling `feedback()` on a freshly constructed instance — no
proposal pending — succeeds silently, leaving the state unchanged, instead of
being rejected with an error.  This refutes the claim for RandomPolicy. -/
theorem C5_counterexample :
    (RandomAlgorithm.init archScenario).result 5
      = some (RandomAlgorithm.init archScenario) := rfl

/-- C5 (amended): every policy except RandomPolicy rejects `feedback()`
before any `propose()` with an error — the attribute holding the last
proposal (`last_action` / `next_state` / `last_state`) does not exist yet, so
the update raises — while RandomPolicy inherits the base class's no-op
feedback and silently tolerates it. -/
theorem C5_feedback_before_propose (arch : Arch) (p3 : ℚ × ℚ × ℚ) (p1 : ℚ)
    (p4 : ℚ × ℚ × ℚ × ℚ) (p5 : ℚ × ℚ × ℚ × ℚ × ℕ) (hidden : ℕ)
    (bits : ℕ → Bool) (res : ℚ) (i subIdx t : ℕ)
    (sampler : ℕ → List ℚ → ℕ → List ℕ) (pf : Bool) :
    (BanditEpsilonAlgorithm.init arch p3).result res = none
    ∧ (BanditOptimisticAlgorithm.init arch p1).result res = none
    ∧ (QLearningAlgorithm.init arch p4 i).bind
        (fun s => s.result res subIdx t) = none
    ∧ (TableauAlgorithm.init arch p5).result res = none
    ∧ (NeuralNetworkAlgorithm.init arch hidden bits).result res sampler pf
        = none
    ∧ (RandomAlgorithm.init arch).result res
        = some (RandomAlgorithm.init arch) := by
  refine ⟨?_, ?_, ?_, ?_, ?_, rfl⟩
  · simp [BanditEpsilonAlgorithm.result, BanditEpsilonAlgorithm.init]
  · simp [BanditOptimisticAlgorithm.result, BanditOptimisticAlgorithm.init]
  · cases hinit : QLearningAlgorithm.init arch p4 i with
    | none => rfl
    | some s =>
      obtain ⟨st0, _, rfl⟩ := qlearning_init_elim hinit
      simp [QLearningAlgorithm.result]
  · simp [TableauAlgorithm.result, TableauAlgorithm.init]
  · simp [NeuralNetworkAlgorithm.result, NeuralNetworkAlgorithm.init]

/-! ## Claim C6 (BanditOptimistic scenario) -/

/-- C6: on any architecture whose action universe is the four-action list
`op1-abort, op1-delay, op2-abort, op2-delay`, BanditOptimistic constructed
with optimistic value 5 starts with every Q entry 5; the first `propose()`
returns one of the four actions; `feedback(10)` brings exactly that action to
Q = 15/2 = 5 + (1/2)(10-5) and N = 2 while the other three stay at Q = 5,
N = 1; and the next `propose()` deterministically returns the rewarded
action again. -/
theorem C6_bandit_optimistic_scenario (arch : Arch)
    (hfi : fault_injections arch
      = ["op1-abort", "op1-delay", "op2-abort", "op2-delay"]) :
    (∀ a ∈ (["op1-abort", "op1-delay", "op2-abort", "op2-delay"] : List String),
      (BanditOptimisticAlgorithm.init arch 5).Q.lookup a = some 5)
    ∧ ∃ a s1 s2 s3,
      (BanditOptimisticAlgorithm.init arch 5).get_action = some (a, s1)
      ∧ a ∈ (["op1-abort", "op1-delay", "op2-abort", "op2-delay"] : List String)
      ∧ s1.result 10 = some s2
      ∧ s2.Q.lookup a = some (15 / 2)
      ∧ s2.N.lookup a = some 2
      ∧ (∀ b ∈ (["op1-abort", "op1-delay", "op2-abort", "op2-delay"] :
          List String), b ≠ a →
            s2.Q.lookup b = some 5 ∧ s2.N.lookup b = some 1)
      ∧ s2.get_action = some (a, s3) := by
  have hQ : (BanditOptimisticAlgorithm.init arch 5).Q
      = [("op1-abort", (5 : ℚ)), ("op1-delay", 5), ("op2-abort", 5),
         ("op2-delay", 5)] := by
    simp [BanditOptimisticAlgorithm.init, hfi]
  have hN : (BanditOptimisticAlgorithm.init arch 5).N
      = [("op1-abort", 1), ("op1-delay", 1), ("op2-abort", 1),
         ("op2-delay", 1)] := by
    simp [BanditOptimisticAlgorithm.init, hfi]
  have hmax : maxItem (BanditOptimisticAlgorithm.init arch 5).Q
      = some ("op1-abort", 5) := by
    rw [hQ]
    norm_num [maxItem]
  have hga : (BanditOptimisticAlgorithm.init arch 5).get_action
      = some ("op1-abort",
        { BanditOptimisticAlgorithm.init arch 5 with
            last_action := some "op1-abort" }) := by
    simp [BanditOptimisticAlgorithm.get_action, hmax]
  have hres : ({ BanditOptimisticAlgorithm.init arch 5 with
      last_action := some "op1-abort" } : BanditOptimisticAlgorithm).result 10
      = some { BanditOptimisticAlgorithm.init arch 5 with
          last_action := some "op1-abort"
          Q := [("op1-abort", (15 : ℚ) / 2), ("op1-delay", 5),
                ("op2-abort", 5), ("op2-delay", 5)]
          N := [("op1-abort", 2), ("op1-delay", 1), ("op2-abort", 1),
                ("op2-delay", 1)] } := by
    simp only [BanditOptimisticAlgorithm.result, hQ, hN]
    norm_num [List.lookup, setVal]
    decide
  have hmax2 : maxItem ([("op1-abort", (15 : ℚ) / 2), ("op1-delay", 5),
      ("op2-abort", 5), ("op2-delay", 5)] : List (String × ℚ))
      = some ("op1-abort", 15 / 2) := by
    norm_num [maxItem]
  refine ⟨?_, "op1-abort",
    { BanditOptimisticAlgorithm.init arch 5 with
        last_action := some "op1-abort" },
    { BanditOptimisticAlgorithm.init arch 5 with
        last_action := some "op1-abort"
        Q := [("op1-abort", (15 : ℚ) / 2), ("op1-delay", 5),
              ("op2-abort", 5), ("op2-delay", 5)]
        N := [("op1-abort", 2), ("op1-delay", 1), ("op2-abort", 1),
              ("op2-delay", 1)] },
    { BanditOptimisticAlgorithm.init arch 5 with
        last_action := some "op1-abort"
        Q := [("op1-abort", (15 : ℚ) / 2), ("op1-delay", 5),
              ("op2-abort", 5), ("op2-delay", 5)]
        N := [("op1-abort", 2), ("op1-delay", 1), ("op2-abort", 1),
              ("op2-delay", 1)] },
    hga, by simp, hres, by simp [List.lookup], by simp [List.lookup],
    ?_, ?_⟩
  · intro a ha
    rw [hQ]
    simp only [List.mem_cons, List.not_mem_nil, or_false] at ha
    rcases ha with rfl | rfl | rfl | rfl
    all_goals simp [List.lookup]
  · intro b hb hbne
    simp only [List.mem_cons, List.not_mem_nil, or_false] at hb
    rcases hb with rfl | rfl | rfl | rfl
    · exact absurd rfl hbne
    all_goals exact ⟨by simp [List.lookup], by simp [List.lookup]⟩
  · simp [BanditOptimisticAlgorithm.get_action, hmax2]

/-- C6 witness: the scenario instantiated at the concrete two-operation
architecture of the spec, whose action universe is exactly the four-action
list. -/
theorem C6_bandit_optimistic_scenario_witness :
    (∀ a ∈ (["op1-abort", "op1-delay", "op2-abort", "op2-delay"] : List String),
      (BanditOptimisticAlgorithm.init archScenario 5).Q.lookup a = some 5)
    ∧ ∃ a s1 s2 s3,
      (BanditOptimisticAlgorithm.init archScenario 5).get_action = some (a, s1)
      ∧ a ∈ (["op1-abort", "op1-delay", "op2-abort", "op2-delay"] : List String)
      ∧ s1.result 10 = some s2
      ∧ s2.Q.lookup a = some (15 / 2)
      ∧ s2.N.lookup a = some 2
      ∧ (∀ b ∈ (["op1-abort", "op1-delay", "op2-abort", "op2-delay"] :
          List String), b ≠ a →
            s2.Q.lookup b = some 5 ∧ s2.N.lookup b = some 1)
      ∧ s2.get_action = some (a, s3) :=
  C6_bandit_optimistic_scenario archScenario (by decide)

/-! ## Per-policy step lemmas: preserved fields and proposal membership -/

theorem BEstep_fields {s s2 : BanditEpsilonAlgorithm} {e : BEEvent}
    (h : BEstep s e = some s2) :
    s2.arch = s.arch ∧ s2.params = s.params
    ∧ s2.original_epsilon = s.original_epsilon ∧ s2.gamma = s.gamma
    ∧ s2.min_epsilon = s.min_epsilon
    ∧ s2.fault_injections = s.fault_injections
    ∧ s2.Q.map Prod.fst = s.Q.map Prod.fst := by
  cases e with
  | propose r i =>
    simp only [BEstep, BanditEpsilonAlgorithm.get_action] at h
    split at h
    · cases hch : choiceIdx (s.Q.map Prod.fst) i with
      | none => rw [hch] at h; cases h
      | some a =>
        rw [hch] at h
        cases h
        exact ⟨rfl, rfl, rfl, rfl, rfl, rfl, rfl⟩
    · cases hmx : maxItem s.Q with
      | none => rw [hmx] at h; cases h
      | some p =>
        rw [hmx] at h
        cases h
        exact ⟨rfl, rfl, rfl, rfl, rfl, rfl, rfl⟩
  | feedback res =>
    simp only [BEstep, BanditEpsilonAlgorithm.result, Option.bind_eq_some,
      bind, Option.some.injEq] at h
    obtain ⟨a, _, n, _, q, _, h⟩ := h
    subst h
    exact ⟨rfl, rfl, rfl, rfl, rfl, rfl, setVal_keys ..⟩

theorem BOstep_fields {s s2 : BanditOptimisticAlgorithm} {e : BOEvent}
    (h : BOstep s e = some s2) :
    s2.arch = s.arch ∧ s2.params = s.params ∧ s2.optimistic = s.optimistic
    ∧ s2.fault_injections = s.fault_injections
    ∧ s2.Q.map Prod.fst = s.Q.map Prod.fst := by
  cases e with
  | propose =>
    simp only [BOstep, BanditOptimisticAlgorithm.get_action] at h
    cases hmx : maxItem s.Q with
    | none => rw [hmx] at h; cases h
    | some p =>
      rw [hmx] at h
      cases h
      exact ⟨rfl, rfl, rfl, rfl, rfl⟩
  | feedback res =>
    simp only [BOstep, BanditOptimisticAlgorithm.result, Option.bind_eq_some,
      bind, Option.some.injEq] at h
    obtain ⟨a, _, q, _, n, _, h⟩ := h
    subst h
    exact ⟨rfl, rfl, rfl, rfl, setVal_keys ..⟩

theorem Rndstep_fields {s s2 : RandomAlgorithm} {e : RndEvent}
    (h : Rndstep s e = some s2) : s2 = s := by
  cases e with
  | propose i =>
    simp only [Rndstep] at h
    cases hch : s.get_action i with
    | none => rw [hch] at h; cases h
    | some a => rw [hch] at h; cases h; rfl
  | feedback res =>
    simp only [Rndstep, RandomAlgorithm.result] at h
    cases h
    rfl

theorem QLstep_fields {s s2 : QLearningAlgorithm} {e : QLEvent}
    (h : QLstep s e = some s2) :
    s2.arch = s.arch ∧ s2.params = s.params ∧ s2.epsilon = s.epsilon
    ∧ s2.gamma = s.gamma ∧ s2.learning_rate = s.learning_rate
    ∧ s2.initial_q = s.initial_q
    ∧ s2.fault_injections = s.fault_injections
    ∧ s2.states.map Prod.fst = s.states.map Prod.fst := by
  have hupd : ∀ res ns nsa t,
      s.result_update res ns nsa t = some s2 →
        s2.arch = s.arch ∧ s2.params = s.params ∧ s2.epsilon = s.epsilon
        ∧ s2.gamma = s.gamma ∧ s2.learning_rate = s.learning_rate
        ∧ s2.initial_q = s.initial_q
        ∧ s2.fault_injections = s.fault_injections
        ∧ s2.states.map Prod.fst = s.states.map Prod.fst := by
    intro res ns nsa t hu
    simp only [QLearningAlgorithm.result_update, Option.bind_eq_some] at hu
    obtain ⟨st, _, q, _, n, _, nast, _, ak, _, bq, _, hu⟩ := hu
    cases hu
    exact ⟨rfl, rfl, rfl, rfl, rfl, rfl, rfl, setVal_keys ..⟩
  cases e with
  | propose r t c f =>
    simp only [QLstep, QLearningAlgorithm.get_action, Option.map_eq_some'] at h
    obtain ⟨p, hp, h2⟩ := h
    subst h2
    split at hp
    · simp only [Option.bind_eq_some] at hp
      obtain ⟨st, _, a, _, fa, _, hp⟩ := hp
      cases hp
      exact ⟨rfl, rfl, rfl, rfl, rfl, rfl, rfl, rfl⟩
    · simp only [Option.bind_eq_some] at hp
      obtain ⟨st, _, a, _, fa, _, hp⟩ := hp
      cases hp
      exact ⟨rfl, rfl, rfl, rfl, rfl, rfl, rfl, rfl⟩
  | feedback res subIdx t =>
    simp only [QLstep, QLearningAlgorithm.result, Option.bind_eq_some] at h
    obtain ⟨ns, _, h⟩ := h
    split at h
    · exact hupd res ns ns t h
    · simp only [Option.bind_eq_some] at h
      obtain ⟨nsa, _, h⟩ := h
      exact hupd res ns nsa t h

theorem Tabstep_fields {s s2 : TableauAlgorithm} {e : TabEvent}
    (h : Tabstep s e = some s2) :
    s2.arch = s.arch ∧ s2.params = s.params
    ∧ s2.gamma = s.gamma ∧ s2.initial_q = s.initial_q
    ∧ s2.min_epsilon = s.min_epsilon ∧ s2.action_size = s.action_size
    ∧ s2.fault_injections = s.fault_injections
    ∧ s2.states.map Prod.fst = s.states.map Prod.fst := by
  cases e with
  | propose r ties c b c2 =>
    simp only [Tabstep, TableauAlgorithm.get_action, Option.map_eq_some'] at h
    obtain ⟨p, hp, h2⟩ := h
    subst h2
    split at hp
    · simp only [Option.bind_eq_some] at hp
      obtain ⟨assign, _, i, _, ls, _, hp⟩ := hp
      cases hp
      exact ⟨rfl, rfl, rfl, rfl, rfl, rfl, rfl, rfl⟩
    · simp only [Option.bind_eq_some] at hp
      obtain ⟨la, _, ls, _, hp⟩ := hp
      cases hp
      exact ⟨rfl, rfl, rfl, rfl, rfl, rfl, rfl, rfl⟩
  | feedback res =>
    simp only [Tabstep, TableauAlgorithm.result, Option.bind_eq_some,
      bind, Option.some.injEq] at h
    obtain ⟨ls, _, la, _, st, _, n0, _, q, _, h⟩ := h
    subst h
    exact ⟨rfl, rfl, rfl, rfl, rfl, rfl, rfl, setVal_keys ..⟩

theorem NNstep_fields {s s2 : NeuralNetworkAlgorithm} {e : NNEvent}
    (h : NNstep s e = some s2) :
    s2.arch = s.arch ∧ s2.params = s.params
    ∧ s2.hidden_size = s.hidden_size
    ∧ s2.experience_length = s.experience_length
    ∧ s2.experience_batch_size = s.experience_batch_size
    ∧ s2.train_mode = s.train_mode
    ∧ s2.fault_injections = s.fault_injections
    ∧ s2.states.map Prod.fst = s.states.map Prod.fst := by
  cases e with
  | propose c =>
    simp only [NNstep, NeuralNetworkAlgorithm.get_action] at h
    cases hch : choiceIdx (s.states.map Prod.fst) c with
    | none => rw [hch] at h; cases h
    | some k =>
      rw [hch] at h
      cases h
      exact ⟨rfl, rfl, rfl, rfl, rfl, rfl, rfl, rfl⟩
  | feedback res sampler pf =>
    simp only [NNstep, NeuralNetworkAlgorithm.result] at h
    split at h
    · cases h
      exact ⟨rfl, rfl, rfl, rfl, rfl, rfl, rfl, rfl⟩
    · simp only [Option.bind_eq_some] at h
      obtain ⟨ls, _, f, _, h⟩ := h
      split at h
      · split at h
        · cases h
          simp only [NeuralNetworkAlgorithm.learn_from_experience]
          split
          · split
            · exact ⟨rfl, rfl, rfl, rfl, rfl, rfl, rfl, setVal_keys ..⟩
            · exact ⟨rfl, rfl, rfl, rfl, rfl, rfl, rfl, setVal_keys ..⟩
          · exact ⟨rfl, rfl, rfl, rfl, rfl, rfl, rfl, setVal_keys ..⟩
        · cases h
          exact ⟨rfl, rfl, rfl, rfl, rfl, rfl, rfl, setVal_keys ..⟩
      · cases h

/-! ## Proposal membership and key-set lemmas -/

theorem mapM_some_mem {α β : Type} (f : α → Option β) :
    ∀ (l : List α) (l2 : List β), l.mapM f = some l2 →
      ∀ y ∈ l2, ∃ x ∈ l, f x = some y := by
  intro l
  induction l with
  | nil =>
    intro l2 h y hy
    simp only [List.mapM_nil, pure, Option.some.injEq] at h
    subst h
    simp at hy
  | cons x xs ih =>
    intro l2 h y hy
    rw [List.mapM_cons] at h
    simp only [Option.bind_eq_some, bind, pure, Option.some.injEq] at h
    obtain ⟨y0, hy0, ys, hys, h⟩ := h
    subst h
    rcases List.mem_cons.mp hy with rfl | hy2
    · exact ⟨x, by simp, hy0⟩
    · obtain ⟨x2, hx2, hfx2⟩ := ih ys hys y hy2
      exact ⟨x2, by simp [hx2], hfx2⟩

theorem assignments_mem {s : TableauAlgorithm} {ties : ℕ → ℕ}
    {assign : List (String × ℕ)} (h : s.assignments ties = some assign) :
    ∀ p ∈ assign, p.1 ∈ s.states.map Prod.fst := by
  intro p hp
  obtain ⟨x, hx, hfx⟩ := mapM_some_mem _ _ _ h p hp
  cases hrm : random_argmaxVec x.2.2.Q (ties x.1) with
  | none => rw [hrm] at hfx; cases hfx
  | some bk =>
    rw [hrm] at hfx
    cases hfx
    have hx2 : x.2 ∈ s.states := by
      have := List.mem_enum_iff_get?.mp hx
      exact List.get?_mem this
    exact List.mem_map.mpr ⟨x.2, hx2, rfl⟩

theorem BE_get_action_mem {s s2 : BanditEpsilonAlgorithm} {r : ℚ} {i : ℕ}
    {a : String} (h : s.get_action r i = some (a, s2)) :
    a ∈ s.Q.map Prod.fst := by
  unfold BanditEpsilonAlgorithm.get_action at h
  split at h
  · cases hch : choiceIdx (s.Q.map Prod.fst) i with
    | none => rw [hch] at h; cases h
    | some b =>
      rw [hch] at h
      cases h
      exact choiceIdx_mem hch
  · cases hmx : maxItem s.Q with
    | none => rw [hmx] at h; cases h
    | some p =>
      rw [hmx] at h
      cases h
      exact List.mem_map.mpr ⟨p, maxItem_mem hmx, rfl⟩

theorem BO_get_action_mem {s s2 : BanditOptimisticAlgorithm} {a : String}
    (h : s.get_action = some (a, s2)) : a ∈ s.Q.map Prod.fst := by
  unfold BanditOptimisticAlgorithm.get_action at h
  cases hmx : maxItem s.Q with
  | none => rw [hmx] at h; cases h
  | some p =>
    rw [hmx] at h
    cases h
    exact List.mem_map.mpr ⟨p, maxItem_mem hmx, rfl⟩

theorem Rnd_get_action_mem {s : RandomAlgorithm} {i : ℕ} {a : String}
    (h : s.get_action i = some a) : a ∈ s.fault_injections :=
  choiceIdx_mem h

theorem Tab_get_action_mem {s s2 : TableauAlgorithm} {r : ℚ} {ties : ℕ → ℕ}
    {c b c2 : ℕ} {a : String} (h : s.get_action r ties c b c2 = some (a, s2)) :
    a ∈ s.states.map Prod.fst := by
  unfold TableauAlgorithm.get_action at h
  split at h
  · simp only [Option.bind_eq_some] at h
    obtain ⟨assign, hassign, i, hfind, ls, hch, h⟩ := h
    cases h
    have hls := choiceIdx_mem hch
    obtain ⟨q, hq, hq2⟩ := List.mem_map.mp hls
    have hq3 : q ∈ assign := List.mem_filter.mp hq |>.1
    exact hq2 ▸ assignments_mem hassign q hq3
  · simp only [Option.bind_eq_some] at h
    obtain ⟨la, hla, ls, hch, h⟩ := h
    cases h
    exact choiceIdx_mem hch

theorem NN_get_action_mem {s s2 : NeuralNetworkAlgorithm} {c : ℕ}
    {a : String} (h : s.get_action c = some (a, s2)) :
    a ∈ s.states.map Prod.fst := by
  unfold NeuralNetworkAlgorithm.get_action at h
  cases hch : choiceIdx (s.states.map Prod.fst) c with
  | none => rw [hch] at h; cases h
  | some k =>
    rw [hch] at h
    cases h
    exact choiceIdx_mem hch

theorem BE_init_keys (arch : Arch) (p : ℚ × ℚ × ℚ) :
    (BanditEpsilonAlgorithm.init arch p).Q.map Prod.fst
      = fault_injections arch := by
  simp only [BanditEpsilonAlgorithm.init, List.map_map]
  rw [show (Prod.fst ∘ fun a : String => (a, (0 : ℚ))) = id from rfl,
    List.map_id]

theorem BO_init_keys (arch : Arch) (p : ℚ) :
    (BanditOptimisticAlgorithm.init arch p).Q.map Prod.fst
      = fault_injections arch := by
  simp only [BanditOptimisticAlgorithm.init, List.map_map]
  rw [show (Prod.fst ∘ fun a : String => (a, p)) = id from rfl, List.map_id]

theorem Tab_init_keys (arch : Arch) (p : ℚ × ℚ × ℚ × ℚ × ℕ) :
    (TableauAlgorithm.init arch p).states.map Prod.fst
      = fault_injections arch := by
  show ((arch.operations.filter
      (fun op => !(excludedNames.contains op.name))).flatMap
    (fun op => fault_types.map
      (fun fa => (op.name ++ "-" ++ fa,
        ({ Q := List.replicate p.2.2.2.2 p.2.2.1
           N := List.replicate p.2.2.2.2 1 } : TabState))))).map Prod.fst
    = fault_injections arch
  unfold fault_injections
  rw [List.map_flatMap]
  congr 1

theorem enum_map_snd_comp {α β : Type} (l : List α) (g : α → β) :
    l.enum.map (g ∘ Prod.snd) = l.map g := by
  rw [← List.map_map, List.enum_map_snd]

theorem NN_init_keys (arch : Arch) (hid : ℕ) (bits : ℕ → Bool) :
    (NeuralNetworkAlgorithm.init arch hid bits).states.map Prod.fst
      = fault_injections arch := by
  simp only [NeuralNetworkAlgorithm.init, List.map_map]
  rw [show (Prod.fst ∘ fun p : ℕ × Operation × String =>
      (p.2.1.name ++ "-" ++ p.2.2, extract_features p.2.1 p.2.2
        (fun j => bits (4 * p.1 + j))))
      = ((fun pr : Operation × String => pr.1.name ++ "-" ++ pr.2)
          ∘ Prod.snd) from rfl]
  rw [enum_map_snd_comp]
  unfold fault_injections
  rw [List.map_flatMap]
  congr 1

/-! ## Run-level key invariants -/

theorem BErun_keys {arch : Arch} {p : ℚ × ℚ × ℚ} {evs : List BEEvent}
    {s2 : BanditEpsilonAlgorithm}
    (h : runEvents BEstep (BanditEpsilonAlgorithm.init arch p) evs = some s2) :
    s2.Q.map Prod.fst = fault_injections arch :=
  runEvents_invariant BEstep (fun s => s.Q.map Prod.fst = fault_injections arch)
    (fun s e s3 hs hP => ((BEstep_fields hs).2.2.2.2.2.2).trans hP)
    evs _ s2 h (BE_init_keys arch p)

theorem BOrun_keys {arch : Arch} {p : ℚ} {evs : List BOEvent}
    {s2 : BanditOptimisticAlgorithm}
    (h : runEvents BOstep (BanditOptimisticAlgorithm.init arch p) evs
      = some s2) :
    s2.Q.map Prod.fst = fault_injections arch :=
  runEvents_invariant BOstep (fun s => s.Q.map Prod.fst = fault_injections arch)
    (fun s e s3 hs hP => ((BOstep_fields hs).2.2.2.2).trans hP)
    evs _ s2 h (BO_init_keys arch p)

theorem Rndrun_eq {arch : Arch} {evs : List RndEvent} {s2 : RandomAlgorithm}
    (h : runEvents Rndstep (RandomAlgorithm.init arch) evs = some s2) :
    s2 = RandomAlgorithm.init arch :=
  runEvents_invariant Rndstep (fun s => s = RandomAlgorithm.init arch)
    (fun s e s3 hs hP => (Rndstep_fields hs).trans hP)
    evs _ s2 h rfl

theorem Tabrun_keys {arch : Arch} {p : ℚ × ℚ × ℚ × ℚ × ℕ}
    {evs : List TabEvent} {s2 : TableauAlgorithm}
    (h : runEvents Tabstep (TableauAlgorithm.init arch p) evs = some s2) :
    s2.states.map Prod.fst = fault_injections arch :=
  runEvents_invariant Tabstep
    (fun s => s.states.map Prod.fst = fault_injections arch)
    (fun s e s3 hs hP => ((Tabstep_fields hs).2.2.2.2.2.2.2).trans hP)
    evs _ s2 h (Tab_init_keys arch p)

theorem NNrun_keys {arch : Arch} {hid : ℕ} {bits : ℕ → Bool}
    {evs : List NNEvent} {s2 : NeuralNetworkAlgorithm}
    (h : runEvents NNstep (NeuralNetworkAlgorithm.init arch hid bits) evs
      = some s2) :
    s2.states.map Prod.fst = fault_injections arch :=
  runEvents_invariant NNstep
    (fun s => s.states.map Prod.fst = fault_injections arch)
    (fun s e s3 hs hP => ((NNstep_fields hs).2.2.2.2.2.2.2).trans hP)
    evs _ s2 h (NN_init_keys arch hid bits)

/-! ## Claims C1 and C3 (excluded names; action universe membership) -/

theorem fault_injections_from_eligible {arch : Arch} :
    ∀ a ∈ fault_injections arch, ∃ op ∈ arch.operations,
      op.name ∉ excludedNames ∧ ∃ f ∈ fault_types, a = op.name ++ "-" ++ f := by
  intro a ha
  unfold fault_injections at ha
  rw [List.mem_flatMap] at ha
  obtain ⟨op, hop, ha2⟩ := ha
  rw [List.mem_filter] at hop
  rw [List.mem_map] at ha2
  obtain ⟨f, hf, rfl⟩ := ha2
  refine ⟨op, hop.1, ?_, f, hf, rfl⟩
  simpa using hop.2

/-- C1 counterexample: QLearning does not filter the excluded operation
names.  On an architecture where the excluded operation `a1` has an incoming
dependency, `a1` is one of QLearning's state keys; on one where `a1` *is* an
incoming dependency, a greedy `propose()` returns the action id `a1-abort` —
so the excluded names do appear as a state key and inside an action id,
refuting the claim as stated for QLearning. -/
theorem C1_counterexample :
    ((QLearningAlgorithm.init archKeyA1 (0, 0, 0, 0) 0).map
      (fun s => s.states.map Prod.fst)) = some ["a1"]
    ∧ ((QLearningAlgorithm.init archDepA1 (0, 0, 0, 0) 0).bind
      (fun s => (s.get_action 1 0 0 0).map Prod.fst)) = some "a1-abort"
    ∧ "a1" ∈ excludedNames := by
  refine ⟨by decide, by decide, by decide⟩

/-- C1 (amended): for BanditEpsilon, BanditOptimistic, RandomPolicy, Tableau
and NeuralPolicy the excluded names never appear, at any point of any
propose/feedback run: every action of the flat universe is built from a
non-excluded operation and a fault type, the state keys held by Tableau and
NeuralPolicy (and the bandits' Q keys) remain exactly that universe, and
every proposed action id belongs to it.  QLearning alone does not filter the
excluded names, which can appear among its state keys and proposed action
ids when excluded operations have, or are, incoming dependencies. -/
theorem C1_excluded_names_filtered_policies (arch : Arch)
    (pBE : ℚ × ℚ × ℚ) (evsBE : List BEEvent) {sBE : BanditEpsilonAlgorithm}
    (hBE : runEvents BEstep (BanditEpsilonAlgorithm.init arch pBE) evsBE
      = some sBE)
    (pBO : ℚ) (evsBO : List BOEvent) {sBO : BanditOptimisticAlgorithm}
    (hBO : runEvents BOstep (BanditOptimisticAlgorithm.init arch pBO) evsBO
      = some sBO)
    (evsR : List RndEvent) {sR : RandomAlgorithm}
    (hR : runEvents Rndstep (RandomAlgorithm.init arch) evsR = some sR)
    (pT : ℚ × ℚ × ℚ × ℚ × ℕ) (evsT : List TabEvent) {sT : TableauAlgorithm}
    (hT : runEvents Tabstep (TableauAlgorithm.init arch pT) evsT = some sT)
    (hid : ℕ) (bits : ℕ → Bool) (evsN : List NNEvent)
    {sN : NeuralNetworkAlgorithm}
    (hN : runEvents NNstep (NeuralNetworkAlgorithm.init arch hid bits) evsN
      = some sN) :
    (∀ a ∈ fault_injections arch, ∃ op ∈ arch.operations,
      op.name ∉ excludedNames ∧ ∃ f ∈ fault_types, a = op.name ++ "-" ++ f)
    ∧ sBE.Q.map Prod.fst = fault_injections arch
    ∧ sBO.Q.map Prod.fst = fault_injections arch
    ∧ sT.states.map Prod.fst = fault_injections arch
    ∧ sN.states.map Prod.fst = fault_injections arch
    ∧ (∀ r i a s2, sBE.get_action r i = some (a, s2)
        → a ∈ fault_injections arch)
    ∧ (∀ a s2, sBO.get_action = some (a, s2) → a ∈ fault_injections arch)
    ∧ (∀ i a, sR.get_action i = some a → a ∈ fault_injections arch)
    ∧ (∀ r ties c b c2 a s2, sT.get_action r ties c b c2 = some (a, s2)
        → a ∈ fault_injections arch)
    ∧ (∀ c a s2, sN.get_action c = some (a, s2)
        → a ∈ fault_injections arch) := by
  refine ⟨fault_injections_from_eligible, BErun_keys hBE, BOrun_keys hBO,
    Tabrun_keys hT, NNrun_keys hN, ?_, ?_, ?_, ?_, ?_⟩
  · intro r i a s2 h
    exact BErun_keys hBE ▸ BE_get_action_mem h
  · intro a s2 h
    exact BOrun_keys hBO ▸ BO_get_action_mem h
  · intro i a h
    have hm := Rnd_get_action_mem h
    rw [Rndrun_eq hR] at hm
    exact hm
  · intro r ties c b c2 a s2 h
    exact Tabrun_keys hT ▸ Tab_get_action_mem h
  · intro c a s2 h
    exact NNrun_keys hN ▸ NN_get_action_mem h

/-- C1 witness: the amended statement at the concrete two-operation
architecture with empty event histories. -/
theorem C1_excluded_names_filtered_policies_witness :
    (∀ a ∈ fault_injections archScenario, ∃ op ∈ archScenario.operations,
      op.name ∉ excludedNames ∧ ∃ f ∈ fault_types, a = op.name ++ "-" ++ f)
    ∧ (BanditEpsilonAlgorithm.init archScenario (1, 1, 1)).Q.map Prod.fst
        = fault_injections archScenario
    ∧ (BanditOptimisticAlgorithm.init archScenario 5).Q.map Prod.fst
        = fault_injections archScenario
    ∧ (TableauAlgorithm.init archScenario (1, 1, 1, 1, 2)).states.map Prod.fst
        = fault_injections archScenario
    ∧ (NeuralNetworkAlgorithm.init archScenario 4
        (fun _ => false)).states.map Prod.fst = fault_injections archScenario
    ∧ (∀ r i a s2, (BanditEpsilonAlgorithm.init archScenario
          (1, 1, 1)).get_action r i = some (a, s2)
        → a ∈ fault_injections archScenario)
    ∧ (∀ a s2, (BanditOptimisticAlgorithm.init archScenario 5).get_action
          = some (a, s2) → a ∈ fault_injections archScenario)
    ∧ (∀ i a, (RandomAlgorithm.init archScenario).get_action i = some a
        → a ∈ fault_injections archScenario)
    ∧ (∀ r ties c b c2 a s2, (TableauAlgorithm.init archScenario
          (1, 1, 1, 1, 2)).get_action r ties c b c2 = some (a, s2)
        → a ∈ fault_injections archScenario)
    ∧ (∀ c a s2, (NeuralNetworkAlgorithm.init archScenario 4
          (fun _ => false)).get_action c = some (a, s2)
        → a ∈ fault_injections archScenario) :=
  C1_excluded_names_filtered_policies archScenario (1, 1, 1) [] rfl 5 [] rfl
    [] rfl (1, 1, 1, 1, 2) [] rfl 4 (fun _ => false) [] rfl

/-- C3 counterexample: on an architecture where the excluded operation `a1`
is an incoming dependency, a greedy QLearning `propose()` returns `a1-abort`,
which is not a member of the action universe (the universe filters `a1`
out). -/
theorem C3_counterexample :
    ((QLearningAlgorithm.init archDepA1 (0, 0, 0, 0) 0).bind
      (fun s => (s.get_action 1 0 0 0).map Prod.fst)) = some "a1-abort"
    ∧ "a1-abort" ∉ fault_injections archDepA1 := by
  refine ⟨by decide, by decide⟩

/-- C3 (amended): for every policy except QLearning, every action identifier
returned by `propose()` at any reachable internal state is a member of the
action universe built from the architecture.  QLearning's proposals are
incoming-dependency names with a fault suffix and can fall outside the
universe when an incoming dependency is an excluded operation (see the
counterexample). -/
theorem C3_propose_in_universe (arch : Arch)
    (pBE : ℚ × ℚ × ℚ) (evsBE : List BEEvent) {sBE : BanditEpsilonAlgorithm}
    (hBE : runEvents BEstep (BanditEpsilonAlgorithm.init arch pBE) evsBE
      = some sBE)
    (pBO : ℚ) (evsBO : List BOEvent) {sBO : BanditOptimisticAlgorithm}
    (hBO : runEvents BOstep (BanditOptimisticAlgorithm.init arch pBO) evsBO
      = some sBO)
    (evsR : List RndEvent) {sR : RandomAlgorithm}
    (hR : runEvents Rndstep (RandomAlgorithm.init arch) evsR = some sR)
    (pT : ℚ × ℚ × ℚ × ℚ × ℕ) (evsT : List TabEvent) {sT : TableauAlgorithm}
    (hT : runEvents Tabstep (TableauAlgorithm.init arch pT) evsT = some sT)
    (hid : ℕ) (bits : ℕ → Bool) (evsN : List NNEvent)
    {sN : NeuralNetworkAlgorithm}
    (hN : runEvents NNstep (NeuralNetworkAlgorithm.init arch hid bits) evsN
      = some sN) :
    (∀ r i a s2, sBE.get_action r i = some (a, s2)
      → a ∈ fault_injections arch)
    ∧ (∀ a s2, sBO.get_action = some (a, s2) → a ∈ fault_injections arch)
    ∧ (∀ i a, sR.get_action i = some a → a ∈ fault_injections arch)
    ∧ (∀ r ties c b c2 a s2, sT.get_action r ties c b c2 = some (a, s2)
      → a ∈ fault_injections arch)
    ∧ (∀ c a s2, sN.get_action c = some (a, s2)
      → a ∈ fault_injections arch) := by
  refine ⟨?_, ?_, ?_, ?_, ?_⟩
  · intro r i a s2 h
    exact BErun_keys hBE ▸ BE_get_action_mem h
  · intro a s2 h
    exact BOrun_keys hBO ▸ BO_get_action_mem h
  · intro i a h
    have hm := Rnd_get_action_mem h
    rw [Rndrun_eq hR] at hm
    exact hm
  · intro r ties c b c2 a s2 h
    exact Tabrun_keys hT ▸ Tab_get_action_mem h
  · intro c a s2 h
    exact NNrun_keys hN ▸ NN_get_action_mem h

/-- C3 witness: the amended statement at the concrete two-operation
architecture after a one-proposal history for each policy. -/
theorem C3_propose_in_universe_witness :
    (∀ r i a s2, (BanditEpsilonAlgorithm.init archScenario
        (0, 1, 0)).get_action r i = some (a, s2)
      → a ∈ fault_injections archScenario)
    ∧ (∀ a s2, (BanditOptimisticAlgorithm.init archScenario 5).get_action
        = some (a, s2) → a ∈ fault_injections archScenario)
    ∧ (∀ i a, (RandomAlgorithm.init archScenario).get_action i = some a
      → a ∈ fault_injections archScenario)
    ∧ (∀ r ties c b c2 a s2, (TableauAlgorithm.init archScenario
        (0, 1, 1, 0, 2)).get_action r ties c b c2 = some (a, s2)
      → a ∈ fault_injections archScenario)
    ∧ (∀ c a s2, (NeuralNetworkAlgorithm.init archScenario 4
        (fun _ => true)).get_action c = some (a, s2)
      → a ∈ fault_injections archScenario) :=
  C3_propose_in_universe archScenario (0, 1, 0) [] rfl 5 [] rfl [] rfl
    (0, 1, 1, 0, 2) [] rfl 4 (fun _ => true) [] rfl

/-! ## Claim C7 (QLearning feedback semantics) -/

/-- With unique keys, `random_argmax` always lands on a key holding the
maximal value, so the bootstrap read at it is the maximum regardless of the
tie index. -/
theorem random_argmax_lookup {l : List (String × ℚ)} {t : ℕ} {k : String}
    (hnd : (l.map Prod.fst).Nodup) (h : random_argmax l t = some k) :
    ∃ m, maxItem l = some m ∧ l.lookup k = some m.2 := by
  unfold random_argmax at h
  cases hmx : maxItem l with
  | none => rw [hmx] at h; cases h
  | some mx =>
    rw [hmx] at h
    have hk := choiceIdx_mem h
    rw [List.mem_map] at hk
    obtain ⟨q, hq, hq1⟩ := hk
    rw [List.mem_filter] at hq
    obtain ⟨q1, q2⟩ := q
    have hq2 : q2 = mx.2 := by simpa using hq.2
    subst hq2
    have hq1b : q1 = k := hq1
    subst hq1b
    exact ⟨mx, rfl, lookup_eq_some_of_mem_nodup hq.1 hnd⟩

/-- C7: a QLearning `feedback(outcome)` call — from any configuration whose
lookups are as hypothesized — substitutes a valid state for an invalid
remembered next state (keeping a valid one), replaces `Q[state][next]` by
`(1-α)·Q[state][next] + α·(outcome + γ·max_a Q[next_actual][a])` where the
bootstrap equals the maximum of `Q[next_actual]` for every tie index,
increments `N[state][next]`, and advances the position to the actual next
state. -/
theorem C7_qlearning_feedback (s : QLearningAlgorithm) (res : ℚ)
    (subIdx t : ℕ) (ns nsa : String) (st nast : QLState) (prev_q : ℚ) (n : ℕ)
    (hns : s.next_state = some ns)
    (hnsa : (if (s.states.map Prod.fst).contains ns then some ns
             else choiceIdx (s.states.map Prod.fst) subIdx) = some nsa)
    (hst : s.states.lookup s.state = some st)
    (hq : st.Q.lookup ns = some prev_q)
    (hn : st.N.lookup ns = some n)
    (hnast : s.states.lookup nsa = some nast)
    (hnodup : (nast.Q.map Prod.fst).Nodup)
    (hQne : nast.Q ≠ []) :
    nsa ∈ s.states.map Prod.fst
    ∧ ((s.states.map Prod.fst).contains ns = true → nsa = ns)
    ∧ ∃ m, maxItem nast.Q = some m ∧ m ∈ nast.Q
      ∧ (∀ q ∈ nast.Q, q.2 ≤ m.2)
      ∧ ∃ s2, s.result res subIdx t = some s2
        ∧ (s2.states.lookup s.state).map (fun stx => stx.Q.lookup ns)
            = some (some ((1 - s.learning_rate) * prev_q
              + s.learning_rate * (res + s.gamma * m.2)))
        ∧ (s2.states.lookup s.state).map (fun stx => stx.N.lookup ns)
            = some (some (n + 1))
        ∧ s2.state = nsa := by
  -- the maximum exists
  obtain ⟨m, hm⟩ : ∃ m, maxItem nast.Q = some m := by
    cases hq2 : nast.Q with
    | nil => exact absurd hq2 hQne
    | cons x xs => exact ⟨_, rfl⟩
  -- random_argmax succeeds and its bootstrap is the maximum
  have hfilter_ne : (nast.Q.filter
      (fun p => decide (p.2 = m.2))).map Prod.fst ≠ [] := by
    have hmem : m ∈ nast.Q.filter (fun p => decide (p.2 = m.2)) :=
      List.mem_filter.mpr ⟨maxItem_mem hm, by simp⟩
    intro he
    rw [List.map_eq_nil_iff] at he
    rw [he] at hmem
    exact (List.not_mem_nil m) hmem
  obtain ⟨ak, hak⟩ := Option.isSome_iff_exists.mp
    (choiceIdx_isSome_of_ne_nil t hfilter_ne)
  have hrm : random_argmax nast.Q t = some ak := by
    unfold random_argmax
    rw [hm]
    exact hak
  obtain ⟨m2, hm2, hlook⟩ := random_argmax_lookup hnodup hrm
  rw [hm] at hm2
  obtain rfl := Option.some.inj hm2
  -- the update body evaluates
  have hupd : s.result_update res ns nsa t
      = some { s with
          states := setVal s.states s.state
            { Q := setVal st.Q ns ((1 - s.learning_rate) * prev_q
                + s.learning_rate * (res + s.gamma * m.2))
              N := setVal st.N ns (n + 1) }
          state := nsa } := by
    unfold QLearningAlgorithm.result_update
    rw [hst, Option.some_bind, hq, Option.some_bind, hn, Option.some_bind,
      hnast, Option.some_bind, hrm, Option.some_bind, hlook,
      Option.some_bind]
  -- the whole feedback call evaluates
  have hres : s.result res subIdx t
      = some { s with
          states := setVal s.states s.state
            { Q := setVal st.Q ns ((1 - s.learning_rate) * prev_q
                + s.learning_rate * (res + s.gamma * m.2))
              N := setVal st.N ns (n + 1) }
          state := nsa } := by
    unfold QLearningAlgorithm.result
    conv_lhs => rw [hns]
    rw [Option.some_bind]
    split
    · rename_i hc
      rw [if_pos hc] at hnsa
      obtain rfl := Option.some.inj hnsa
      exact hupd
    · rename_i hc
      rw [if_neg hc] at hnsa
      rw [hnsa, Option.some_bind]
      exact hupd
  have hvalid : nsa ∈ s.states.map Prod.fst := by
    by_cases hc : (s.states.map Prod.fst).contains ns
    · rw [if_pos hc] at hnsa
      obtain rfl := Option.some.inj hnsa
      exact List.contains_iff_exists_mem_beq .. |>.mp hc |>.elim
        (fun x hx => by
          obtain ⟨hx1, hx2⟩ := hx
          obtain rfl := (beq_iff_eq ..).mp hx2
          exact hx1)
    · rw [if_neg hc] at hnsa
      exact choiceIdx_mem hnsa
  have hQlook : ((setVal s.states s.state
      ({ Q := setVal st.Q ns ((1 - s.learning_rate) * prev_q
            + s.learning_rate * (res + s.gamma * m.2))
         N := setVal st.N ns (n + 1) } : QLState)).lookup s.state).map
      (fun stx => stx.Q.lookup ns)
      = some (some ((1 - s.learning_rate) * prev_q
          + s.learning_rate * (res + s.gamma * m.2))) := by
    rw [lookup_setVal_self _ hst]
    simp only [Option.map_some']
    exact congrArg some (lookup_setVal_self _ hq)
  have hNlook : ((setVal s.states s.state
      ({ Q := setVal st.Q ns ((1 - s.learning_rate) * prev_q
            + s.learning_rate * (res + s.gamma * m.2))
         N := setVal st.N ns (n + 1) } : QLState)).lookup s.state).map
      (fun stx => stx.N.lookup ns) = some (some (n + 1)) := by
    rw [lookup_setVal_self _ hst]
    simp only [Option.map_some']
    exact congrArg some (lookup_setVal_self _ hn)
  refine ⟨hvalid, ?_, m, hm, maxItem_mem hm, maxItem_is_max hm, _, hres,
    hQlook, hNlook, rfl⟩
  intro hc
  rw [if_pos hc] at hnsa
  exact (Option.some.inj hnsa).symm

/-- C7 witness: the feedback spec applied to the concrete configuration
`qlC7` (single state `op2`, single action `op1`, invalid remembered next
state `op1`, outcome 7). -/
theorem C7_qlearning_feedback_witness :
    "op2" ∈ qlC7.states.map Prod.fst
    ∧ ((qlC7.states.map Prod.fst).contains "op1" = true → "op2" = "op1")
    ∧ ∃ m, maxItem ({ Q := [("op1", 0)], N := [("op1", 0)] } : QLState).Q
        = some m
      ∧ m ∈ ({ Q := [("op1", 0)], N := [("op1", 0)] } : QLState).Q
      ∧ (∀ q ∈ ({ Q := [("op1", 0)], N := [("op1", 0)] } : QLState).Q,
          q.2 ≤ m.2)
      ∧ ∃ s2, qlC7.result 7 0 0 = some s2
        ∧ (s2.states.lookup qlC7.state).map (fun stx => stx.Q.lookup "op1")
            = some (some ((1 - qlC7.learning_rate) * 0
              + qlC7.learning_rate * (7 + qlC7.gamma * m.2)))
        ∧ (s2.states.lookup qlC7.state).map (fun stx => stx.N.lookup "op1")
            = some (some (0 + 1))
        ∧ s2.state = "op2" :=
  C7_qlearning_feedback qlC7 7 0 0 "op1" "op2"
    { Q := [("op1", 0)], N := [("op1", 0)] }
    { Q := [("op1", 0)], N := [("op1", 0)] } 0 0
    rfl (by decide) rfl rfl rfl rfl (by decide) (by decide)

/-! ## Claim C9 (reset round-trip) -/

theorem BErun_reset {arch : Arch} {p : ℚ × ℚ × ℚ} {evs : List BEEvent}
    {s2 : BanditEpsilonAlgorithm}
    (h : runEvents BEstep (BanditEpsilonAlgorithm.init arch p) evs = some s2) :
    s2.reset = BanditEpsilonAlgorithm.init arch p := by
  have hP := runEvents_invariant BEstep
    (fun s => s.arch = arch ∧ s.original_epsilon = p.1 ∧ s.gamma = p.2.1
      ∧ s.min_epsilon = p.2.2)
    (fun s e s3 hs hPs => by
      obtain ⟨h1, _, h3, h4, h5, _, _⟩ := BEstep_fields hs
      exact ⟨h1.trans hPs.1, h3.trans hPs.2.1, h4.trans hPs.2.2.1,
        h5.trans hPs.2.2.2⟩)
    evs _ s2 h ⟨rfl, rfl, rfl, rfl⟩
  obtain ⟨h1, h2, h3, h4⟩ := hP
  unfold BanditEpsilonAlgorithm.reset
  rw [h1, h2, h3, h4]

theorem BOrun_reset {arch : Arch} {p : ℚ} {evs : List BOEvent}
    {s2 : BanditOptimisticAlgorithm}
    (h : runEvents BOstep (BanditOptimisticAlgorithm.init arch p) evs
      = some s2) :
    s2.reset = BanditOptimisticAlgorithm.init arch p := by
  have hP := runEvents_invariant BOstep
    (fun s => s.arch = arch ∧ s.optimistic = p)
    (fun s e s3 hs hPs => by
      obtain ⟨h1, _, h3, _, _⟩ := BOstep_fields hs
      exact ⟨h1.trans hPs.1, h3.trans hPs.2⟩)
    evs _ s2 h ⟨rfl, rfl⟩
  obtain ⟨h1, h2⟩ := hP
  unfold BanditOptimisticAlgorithm.reset
  rw [h1, h2]

theorem Rndrun_reset {arch : Arch} {evs : List RndEvent}
    {s2 : RandomAlgorithm}
    (h : runEvents Rndstep (RandomAlgorithm.init arch) evs = some s2) :
    s2.reset = RandomAlgorithm.init arch := by
  rw [Rndrun_eq h]
  rfl

theorem QLrun_reset {arch : Arch} {p : ℚ × ℚ × ℚ × ℚ} {i0 : ℕ}
    {s0 : QLearningAlgorithm} {evs : List QLEvent} {s2 : QLearningAlgorithm}
    (h0 : QLearningAlgorithm.init arch p i0 = some s0)
    (h : runEvents QLstep s0 evs = some s2) :
    ∀ i2, s2.reset i2 = QLearningAlgorithm.init arch p i2 := by
  obtain ⟨st0, hch, rfl⟩ := qlearning_init_elim h0
  have hP := runEvents_invariant QLstep
    (fun s => s.arch = arch ∧ s.epsilon = p.1 ∧ s.gamma = p.2.1
      ∧ s.learning_rate = p.2.2.1 ∧ s.initial_q = p.2.2.2)
    (fun s e s3 hs hPs => by
      obtain ⟨h1, _, h3, h4, h5, h6, _, _⟩ := QLstep_fields hs
      exact ⟨h1.trans hPs.1, h3.trans hPs.2.1, h4.trans hPs.2.2.1,
        h5.trans hPs.2.2.2.1, h6.trans hPs.2.2.2.2⟩)
    evs _ s2 h ⟨rfl, rfl, rfl, rfl, rfl⟩
  intro i2
  obtain ⟨h1, h2, h3, h4, h5⟩ := hP
  unfold QLearningAlgorithm.reset
  rw [h1, h2, h3, h4, h5]

theorem Tabrun_reset {arch : Arch} {p : ℚ × ℚ × ℚ × ℚ × ℕ}
    {evs : List TabEvent} {s2 : TableauAlgorithm}
    (h : runEvents Tabstep (TableauAlgorithm.init arch p) evs = some s2) :
    s2.reset = TableauAlgorithm.init arch p := by
  have hP := runEvents_invariant Tabstep
    (fun s => s.arch = arch ∧ s.params = p)
    (fun s e s3 hs hPs => by
      obtain ⟨h1, h2, _, _, _, _, _, _⟩ := Tabstep_fields hs
      exact ⟨h1.trans hPs.1, h2.trans hPs.2⟩)
    evs _ s2 h ⟨rfl, rfl⟩
  obtain ⟨h1, h2⟩ := hP
  unfold TableauAlgorithm.reset
  rw [h1, h2]

theorem NNrun_reset {arch : Arch} {hid : ℕ} {bits : ℕ → Bool}
    {evs : List NNEvent} {s2 : NeuralNetworkAlgorithm}
    (h : runEvents NNstep (NeuralNetworkAlgorithm.init arch hid bits) evs
      = some s2) :
    ∀ bits2, s2.reset bits2 = NeuralNetworkAlgorithm.init arch hid bits2 := by
  have hP := runEvents_invariant NNstep
    (fun s => s.arch = arch ∧ s.params = hid)
    (fun s e s3 hs hPs => by
      obtain ⟨h1, h2, _, _, _, _, _, _⟩ := NNstep_fields hs
      exact ⟨h1.trans hPs.1, h2.trans hPs.2⟩)
    evs _ s2 h ⟨rfl, rfl⟩
  intro bits2
  obtain ⟨h1, h2⟩ := hP
  unfold NeuralNetworkAlgorithm.reset
  rw [h1, h2]

/-- C9: after any propose/feedback history, `reset()` reconstructs exactly
the freshly constructed instance with the original construction parameters
(given the same injected random draws where construction draws any), so any
subsequent identical outcome sequence reproduces exactly the same estimate
trajectory as the fresh instance; in particular BanditEpsilon's reset
restores the original ε together with γ and ε_min, not the decayed one. -/
theorem C9_reset_roundtrip (arch : Arch)
    (pBE : ℚ × ℚ × ℚ) (evsBE : List BEEvent) {sBE : BanditEpsilonAlgorithm}
    (hBE : runEvents BEstep (BanditEpsilonAlgorithm.init arch pBE) evsBE
      = some sBE)
    (pBO : ℚ) (evsBO : List BOEvent) {sBO : BanditOptimisticAlgorithm}
    (hBO : runEvents BOstep (BanditOptimisticAlgorithm.init arch pBO) evsBO
      = some sBO)
    (evsR : List RndEvent) {sR : RandomAlgorithm}
    (hR : runEvents Rndstep (RandomAlgorithm.init arch) evsR = some sR)
    (pQL : ℚ × ℚ × ℚ × ℚ) (i0 : ℕ) {sQL0 : QLearningAlgorithm}
    (hQL0 : QLearningAlgorithm.init arch pQL i0 = some sQL0)
    (evsQL : List QLEvent) {sQL : QLearningAlgorithm}
    (hQL : runEvents QLstep sQL0 evsQL = some sQL)
    (pT : ℚ × ℚ × ℚ × ℚ × ℕ) (evsT : List TabEvent) {sT : TableauAlgorithm}
    (hT : runEvents Tabstep (TableauAlgorithm.init arch pT) evsT = some sT)
    (hid : ℕ) (bits : ℕ → Bool) (evsN : List NNEvent)
    {sN : NeuralNetworkAlgorithm}
    (hN : runEvents NNstep (NeuralNetworkAlgorithm.init arch hid bits) evsN
      = some sN) :
    (sBE.reset = BanditEpsilonAlgorithm.init arch pBE
      ∧ sBE.reset.epsilon = pBE.1 ∧ sBE.reset.gamma = pBE.2.1
      ∧ sBE.reset.min_epsilon = pBE.2.2
      ∧ ∀ evs2, runEvents BEstep sBE.reset evs2
          = runEvents BEstep (BanditEpsilonAlgorithm.init arch pBE) evs2)
    ∧ (sBO.reset = BanditOptimisticAlgorithm.init arch pBO
      ∧ ∀ evs2, runEvents BOstep sBO.reset evs2
          = runEvents BOstep (BanditOptimisticAlgorithm.init arch pBO) evs2)
    ∧ (sR.reset = RandomAlgorithm.init arch
      ∧ ∀ evs2, runEvents Rndstep sR.reset evs2
          = runEvents Rndstep (RandomAlgorithm.init arch) evs2)
    ∧ ((∀ i2, sQL.reset i2 = QLearningAlgorithm.init arch pQL i2)
      ∧ ∀ i2 evs2, (sQL.reset i2).bind
            (fun s => runEvents QLstep s evs2)
          = (QLearningAlgorithm.init arch pQL i2).bind
            (fun s => runEvents QLstep s evs2))
    ∧ (sT.reset = TableauAlgorithm.init arch pT
      ∧ ∀ evs2, runEvents Tabstep sT.reset evs2
          = runEvents Tabstep (TableauAlgorithm.init arch pT) evs2)
    ∧ ((∀ bits2, sN.reset bits2
          = NeuralNetworkAlgorithm.init arch hid bits2)
      ∧ ∀ bits2 evs2, runEvents NNstep (sN.reset bits2) evs2
          = runEvents NNstep (NeuralNetworkAlgorithm.init arch hid bits2)
            evs2) := by
  have hBE2 := BErun_reset hBE
  have hBO2 := BOrun_reset hBO
  have hR2 := Rndrun_reset hR
  have hQL2 := QLrun_reset hQL0 hQL
  have hT2 := Tabrun_reset hT
  have hN2 := NNrun_reset hN
  refine ⟨⟨hBE2, by rw [hBE2]; rfl, by rw [hBE2]; rfl, by rw [hBE2]; rfl,
      fun evs2 => by rw [hBE2]⟩,
    ⟨hBO2, fun evs2 => by rw [hBO2]⟩,
    ⟨hR2, fun evs2 => by rw [hR2]⟩,
    ⟨hQL2, fun i2 evs2 => by rw [hQL2]⟩,
    ⟨hT2, fun evs2 => by rw [hT2]⟩,
    ⟨hN2, fun bits2 evs2 => by rw [hN2]⟩⟩

/-- C9 witness: the round-trip statement at the concrete two-operation
architecture with empty event histories. -/
theorem C9_reset_roundtrip_witness :
    ((BanditEpsilonAlgorithm.init archScenario (1, 2, 3)).reset
        = BanditEpsilonAlgorithm.init archScenario (1, 2, 3)
      ∧ (BanditEpsilonAlgorithm.init archScenario (1, 2, 3)).reset.epsilon = 1
      ∧ (BanditEpsilonAlgorithm.init archScenario (1, 2, 3)).reset.gamma = 2
      ∧ (BanditEpsilonAlgorithm.init archScenario
          (1, 2, 3)).reset.min_epsilon = 3
      ∧ ∀ evs2, runEvents BEstep
            (BanditEpsilonAlgorithm.init archScenario (1, 2, 3)).reset evs2
          = runEvents BEstep
            (BanditEpsilonAlgorithm.init archScenario (1, 2, 3)) evs2)
    ∧ ((BanditOptimisticAlgorithm.init archScenario 5).reset
        = BanditOptimisticAlgorithm.init archScenario 5
      ∧ ∀ evs2, runEvents BOstep
            (BanditOptimisticAlgorithm.init archScenario 5).reset evs2
          = runEvents BOstep (BanditOptimisticAlgorithm.init archScenario 5)
            evs2)
    ∧ ((RandomAlgorithm.init archScenario).reset
        = RandomAlgorithm.init archScenario
      ∧ ∀ evs2, runEvents Rndstep
            (RandomAlgorithm.init archScenario).reset evs2
          = runEvents Rndstep (RandomAlgorithm.init archScenario) evs2)
    ∧ ((∀ i2, qlC9.reset i2
          = QLearningAlgorithm.init archScenario (1, 2, 3, 4) i2)
      ∧ ∀ i2 evs2, (qlC9.reset i2).bind
            (fun s => runEvents QLstep s evs2)
          = (QLearningAlgorithm.init archScenario (1, 2, 3, 4) i2).bind
            (fun s => runEvents QLstep s evs2))
    ∧ ((TableauAlgorithm.init archScenario (1, 2, 3, 4, 2)).reset
        = TableauAlgorithm.init archScenario (1, 2, 3, 4, 2)
      ∧ ∀ evs2, runEvents Tabstep
            (TableauAlgorithm.init archScenario (1, 2, 3, 4, 2)).reset evs2
          = runEvents Tabstep
            (TableauAlgorithm.init archScenario (1, 2, 3, 4, 2)) evs2)
    ∧ ((∀ bits2, (NeuralNetworkAlgorithm.init archScenario 4
            (fun _ => false)).reset bits2
          = NeuralNetworkAlgorithm.init archScenario 4 bits2)
      ∧ ∀ bits2 evs2, runEvents NNstep
            ((NeuralNetworkAlgorithm.init archScenario 4
              (fun _ => false)).reset bits2) evs2
          = runEvents NNstep
            (NeuralNetworkAlgorithm.init archScenario 4 bits2) evs2) :=
  C9_reset_roundtrip archScenario (1, 2, 3) [] rfl 5 [] rfl [] rfl
    (1, 2, 3, 4) 0 rfl [] rfl (1, 2, 3, 4, 2) [] rfl 4 (fun _ => false) []
    rfl

/-! ## Claim C10 (NeuralPolicy experience entries alias the live features) -/

theorem getLast?_drop {α : Type} :
    ∀ (l : List α) (k : ℕ), k < l.length →
      (l.drop k).getLast? = l.getLast? := by
  intro l
  induction l with
  | nil => intro k h; simp at h
  | cons x xs ih =>
    intro k h
    cases k with
    | zero => rfl
    | succ k2 =>
      rw [List.drop_succ_cons]
      cases xs with
      | nil => simp at h
      | cons y ys =>
        rw [List.getLast?_cons_cons]
        exact ih k2 (by simp only [List.length_cons] at h ⊢; omega)

/-- Retraining never touches the per-state feature vectors; it only consumes
(and thereby trims) the replay buffer and replaces the model. -/
theorem learn_fields (s : NeuralNetworkAlgorithm)
    (sampler : ℕ → List ℚ → ℕ → List ℕ) (pf : Bool) :
    (s.learn_from_experience sampler pf).states = s.states
    ∧ (s.learn_from_experience sampler pf).experience
      = (s.experience.get_batch s.experience_batch_size sampler).2 := by
  simp only [NeuralNetworkAlgorithm.learn_from_experience]
  split
  · split
    · exact ⟨rfl, rfl⟩
    · exact ⟨rfl, rfl⟩
  · exact ⟨rfl, rfl⟩

/-- C10: a NeuralPolicy `feedback(outcome)` stores the *live* per-state
feature-vector reference, not a snapshot: immediately after the same call
returns, the stored entry's dereferenced feature vector already has the
outcome just reported in its newest lagged-outcome slot (index 3) — so it
differs from the vector observed at storage time whenever that slot changed —
and every entry previously stored for the same state dereferences to the
same updated vector, which is what the next retraining batch reads. -/
theorem C10_neural_experience_aliasing (s : NeuralNetworkAlgorithm)
    (res : ℚ) (sampler : ℕ → List ℚ → ℕ → List ℕ) (pf : Bool)
    (k : String) (f : List ℚ)
    (htm : s.train_mode = true)
    (hls : s.last_state = some k)
    (hf : s.states.lookup k = some f)
    (hlen : 6 < f.length)
    (hmem : 0 < s.experience.max_memory) :
    ∃ s2, s.result res sampler pf = some s2
      ∧ s2.experience.memory.getLast? = some (k, res)
      ∧ ∃ f2, s2.states.lookup k = some f2
        ∧ f2.get? 3 = some res
        ∧ (f.get? 3 ≠ some res → f2 ≠ f)
        ∧ ∀ e ∈ s2.experience.memory, e.1 = k →
            s2.states.lookup e.1 = some f2 := by
  have hf2get : ((((f.set 6 (f.getD 5 0)).set 5 (f.getD 4 0)).set 4
      (f.getD 3 0)).set 3 res).get? 3 = some res := by
    rw [List.get?_eq_getElem?, List.getElem?_set_self]
    simp only [List.length_set]
    omega
  have hlook : (setVal s.states k
      ((((f.set 6 (f.getD 5 0)).set 5 (f.getD 4 0)).set 4
        (f.getD 3 0)).set 3 res)).lookup k
      = some ((((f.set 6 (f.getD 5 0)).set 5 (f.getD 4 0)).set 4
        (f.getD 3 0)).set 3 res) :=
    lookup_setVal_self _ hf
  unfold NeuralNetworkAlgorithm.result
  rw [htm]
  simp only [Bool.not_true, Bool.false_eq_true, if_false]
  rw [hls, Option.some_bind, hf, Option.some_bind, if_pos hlen]
  split
  · -- retraining branch
    refine ⟨_, rfl, ?_, _, ?_, hf2get, ?_, ?_⟩
    · obtain ⟨hst, hexp⟩ := learn_fields _ sampler pf
      rw [hexp, get_batch_snd, trim_memory]
      rw [show (({ s with
          iteration_counter := s.iteration_counter + 1
          experience := s.experience.remember (k, res)
          states := setVal s.states k
            ((((f.set 6 (f.getD 5 0)).set 5 (f.getD 4 0)).set 4
              (f.getD 3 0)).set 3 res) } :
            NeuralNetworkAlgorithm)).experience
        = s.experience.remember (k, res) from rfl]
      rw [show (s.experience.remember (k, res)).memory
        = s.experience.memory ++ [(k, res)] from rfl]
      rw [show (s.experience.remember (k, res)).max_memory
        = s.experience.max_memory from rfl]
      rw [getLast?_drop _ _ (by
        rw [List.length_append]
        simp only [List.length_cons, List.length_nil]
        omega)]
      exact List.getLast?_concat _
    · obtain ⟨hst, _⟩ := learn_fields _ sampler pf
      rw [hst]
      exact hlook
    · intro hne heq
      exact hne (heq ▸ hf2get)
    · obtain ⟨hst, _⟩ := learn_fields _ sampler pf
      intro e _ hek
      rw [hst, hek]
      exact hlook
  · -- no retraining
    refine ⟨_, rfl, ?_, _, hlook, hf2get, ?_, ?_⟩
    · exact List.getLast?_concat _
    · intro hne heq
      exact hne (heq ▸ hf2get)
    · intro e _ hek
      rw [hek]
      exact hlook

/-- C10 witness: the aliasing statement at a freshly constructed NeuralPolicy
on the scenario architecture, right after a proposal of `op1-abort`, with
outcome 9. -/
theorem C10_neural_experience_aliasing_witness :
    ∃ s2, nnC10.result 9 (fun _ _ k2 => List.range k2) false = some s2
      ∧ s2.experience.memory.getLast? = some ("op1-abort", 9)
      ∧ ∃ f2, s2.states.lookup "op1-abort" = some f2
        ∧ f2.get? 3 = some 9
        ∧ ((extract_features opOp1 "abort" (fun j => false)).get? 3 ≠ some 9
            → f2 ≠ extract_features opOp1 "abort" (fun j => false))
        ∧ ∀ e ∈ s2.experience.memory, e.1 = "op1-abort" →
            s2.states.lookup e.1 = some f2 :=
  C10_neural_experience_aliasing nnC10 9 (fun _ _ k2 => List.range k2) false
    "op1-abort" (extract_features opOp1 "abort" (fun j => false))
    rfl rfl rfl (by decide) (by decide)

end DecisionEngine
